/-
Verification of the xMatters capture-instance-data engine (processor.py).

The Python module is shallowly embedded: JSON values become the inductive
`JVal`, the module-level mutable state (`_sites_cache`, `_admin_objects`,
the output files and the issued network calls) becomes the record `RunSt`
threaded through every function, fallible Python code (KeyError, TypeError,
uncaught requests exceptions, non-termination of `while True` loops under a
fuel bound) returns `Except PyErr`, and each `file.write`/`json.dump` call
appends tokens to a per-file token list.  Function names follow the Python
names (leading underscores dropped).
-/

import Mathlib

set_option maxRecDepth 4000

/-- A Python/JSON value as handled by `processor.py` (bodies of `response.json()`,
records, and the values stored in the caches and admin sets). -/
inductive JVal where
  | null
  | str (s : String)
  | num (n : Int)
  | bool (b : Bool)
  | arr (xs : List JVal)
  | obj (fields : List (String × JVal))

mutual

def JVal.decEq : (a b : JVal) → Decidable (a = b)
  | .null, .null => isTrue rfl
  | .null, .str _ => isFalse (fun h => nomatch h)
  | .null, .num _ => isFalse (fun h => nomatch h)
  | .null, .bool _ => isFalse (fun h => nomatch h)
  | .null, .arr _ => isFalse (fun h => nomatch h)
  | .null, .obj _ => isFalse (fun h => nomatch h)
  | .str _, .null => isFalse (fun h => nomatch h)
  | .str a, .str b =>
    match String.decEq a b with
    | isTrue h => isTrue (by rw [h])
    | isFalse h => isFalse (by intro hh; injection hh; contradiction)
  | .str _, .num _ => isFalse (fun h => nomatch h)
  | .str _, .bool _ => isFalse (fun h => nomatch h)
  | .str _, .arr _ => isFalse (fun h => nomatch h)
  | .str _, .obj _ => isFalse (fun h => nomatch h)
  | .num _, .null => isFalse (fun h => nomatch h)
  | .num _, .str _ => isFalse (fun h => nomatch h)
  | .num a, .num b =>
    match Int.decEq a b with
    | isTrue h => isTrue (by rw [h])
    | isFalse h => isFalse (by intro hh; injection hh; contradiction)
  | .num _, .bool _ => isFalse (fun h => nomatch h)
  | .num _, .arr _ => isFalse (fun h => nomatch h)
  | .num _, .obj _ => isFalse (fun h => nomatch h)
  | .bool _, .null => isFalse (fun h => nomatch h)
  | .bool _, .str _ => isFalse (fun h => nomatch h)
  | .bool _, .num _ => isFalse (fun h => nomatch h)
  | .bool a, .bool b =>
    match Bool.decEq a b with
    | isTrue h => isTrue (by rw [h])
    | isFalse h => isFalse (by intro hh; injection hh; contradiction)
  | .bool _, .arr _ => isFalse (fun h => nomatch h)
  | .bool _, .obj _ => isFalse (fun h => nomatch h)
  | .arr _, .null => isFalse (fun h => nomatch h)
  | .arr _, .str _ => isFalse (fun h => nomatch h)
  | .arr _, .num _ => isFalse (fun h => nomatch h)
  | .arr _, .bool _ => isFalse (fun h => nomatch h)
  | .arr a, .arr b =>
    match JVal.decEqList a b with
    | isTrue h => isTrue (by rw [h])
    | isFalse h => isFalse (by intro hh; injection hh; contradiction)
  | .arr _, .obj _ => isFalse (fun h => nomatch h)
  | .obj _, .null => isFalse (fun h => nomatch h)
  | .obj _, .str _ => isFalse (fun h => nomatch h)
  | .obj _, .num _ => isFalse (fun h => nomatch h)
  | .obj _, .bool _ => isFalse (fun h => nomatch h)
  | .obj _, .arr _ => isFalse (fun h => nomatch h)
  | .obj a, .obj b =>
    match JVal.decEqFields a b with
    | isTrue h => isTrue (by rw [h])
    | isFalse h => isFalse (by intro hh; injection hh; contradiction)

def JVal.decEqList : (xs ys : List JVal) → Decidable (xs = ys)
  | [], [] => isTrue rfl
  | [], _ :: _ => isFalse (fun h => nomatch h)
  | _ :: _, [] => isFalse (fun h => nomatch h)
  | x :: xs, y :: ys =>
    match JVal.decEq x y with
    | isFalse h => isFalse (by intro hh; injection hh; contradiction)
    | isTrue h1 =>
      match JVal.decEqList xs ys with
      | isFalse h => isFalse (by intro hh; injection hh; contradiction)
      | isTrue h2 => isTrue (by rw [h1, h2])

def JVal.decEqFields : (xs ys : List (String × JVal)) → Decidable (xs = ys)
  | [], [] => isTrue rfl
  | [], _ :: _ => isFalse (fun h => nomatch h)
  | _ :: _, [] => isFalse (fun h => nomatch h)
  | (k, v) :: xs, (k', v') :: ys =>
    match String.decEq k k' with
    | isFalse h => isFalse (by intro hh; injection hh with h1 h2; injection h1; contradiction)
    | isTrue hk =>
      match JVal.decEq v v' with
      | isFalse h => isFalse (by intro hh; injection hh with h1 h2; injection h1; contradiction)
      | isTrue hv =>
        match JVal.decEqFields xs ys with
        | isFalse h => isFalse (by intro hh; injection hh; contradiction)
        | isTrue ht => isTrue (by rw [hk, hv, ht])

end

instance : DecidableEq JVal := JVal.decEq

/-- Errors a run of the embedded code can raise: Python `KeyError`,
`TypeError`, an uncaught `requests` exception, and exhaustion of the fuel
bound on a `while True` loop. -/
inductive PyErr where
  | keyError
  | typeError
  | transportError
  | nonTermination
deriving DecidableEq

instance (ε α : Type) [DecidableEq ε] [DecidableEq α] : DecidableEq (Except ε α)
  | .ok a, .ok b =>
    match decEq a b with
    | isTrue h => isTrue (by rw [h])
    | isFalse h => isFalse (by intro hh; injection hh; contradiction)
  | .ok _, .error _ => isFalse (fun h => nomatch h)
  | .error _, .ok _ => isFalse (fun h => nomatch h)
  | .error a, .error b =>
    match decEq a b with
    | isTrue h => isTrue (by rw [h])
    | isFalse h => isFalse (by intro hh; injection hh; contradiction)

/-- Result of one `requests.get`: either a raised transport exception or a
response carrying an HTTP status and a parsed JSON body. -/
inductive FetchResult where
  | exn
  | resp (status : Nat) (body : JVal)

/-- First binding of a key in a Python dict represented as an assoc list. -/
def lookupField : List (String × JVal) → String → Option JVal
  | [], _ => none
  | (k', v) :: rest, k => if k' = k then some v else lookupField rest k

/-- `d[k]` on a JSON object: `KeyError` when the key is absent, `TypeError`
when the value is not an object. -/
def getField (j : JVal) (k : String) : Except PyErr JVal :=
  match j with
  | .obj fs =>
    match lookupField fs k with
    | some v => .ok v
    | none => .error .keyError
  | _ => .error .typeError

/-- `k in d` on a JSON object (false on non-objects). -/
def hasKey (j : JVal) (k : String) : Bool :=
  match j with
  | .obj fs => (lookupField fs k).isSome
  | _ => false

/-- Coerce to a Python int (`TypeError` otherwise, as in a comparison). -/
def asIntE : JVal → Except PyErr Int
  | .num n => .ok n
  | _ => .error .typeError

/-- Coerce to a Python str (`TypeError` otherwise, as in a concatenation). -/
def asStrE : JVal → Except PyErr String
  | .str s => .ok s
  | _ => .error .typeError

/-- Coerce to a Python list (`TypeError` otherwise, as in iteration). -/
def asArrE : JVal → Except PyErr (List JVal)
  | .arr xs => .ok xs
  | _ => .error .typeError

/-- `del j[k]` followed by `j[k] = v` on a JSON object: the key is removed
and re-added at the end, matching Python dict insertion order. -/
def setField (j : JVal) (k : String) (v : JVal) : JVal :=
  match j with
  | .obj fs => .obj ((fs.filter (fun p => decide (p.1 ≠ k))) ++ [(k, v)])
  | other => other

/-- Tokens appended to an output file by `write`/`json.dump` calls.
`newline` stands for the whitespace parts of `"[\n"`, `",\n"` and `"\n"`. -/
inductive Tok where
  | lbrack
  | rbrack
  | comma
  | newline
  | record (j : JVal)
deriving DecidableEq

/-- The seven categories of `_admin_objects`. -/
inductive Cat where
  | admins
  | roles
  | timezones
  | countries
  | languages
  | devices
  | usps
deriving DecidableEq

/-- Python `set.add` on a set represented as a duplicate-free list. -/
def addSet (v : JVal) (s : List JVal) : List JVal :=
  if v ∈ s then s else s ++ [v]

/-- The `_admin_objects` dict of sets. -/
structure AdminSets where
  admins : List JVal
  roles : List JVal
  timezones : List JVal
  countries : List JVal
  languages : List JVal
  devices : List JVal
  usps : List JVal
deriving DecidableEq

def emptyAdmin : AdminSets := ⟨[], [], [], [], [], [], []⟩

/-- `_update_admin(a_type, a_value)`: put the value into the named set. -/
def update_admin (c : Cat) (v : JVal) (a : AdminSets) : AdminSets :=
  match c with
  | .admins => { a with admins := addSet v a.admins }
  | .roles => { a with roles := addSet v a.roles }
  | .timezones => { a with timezones := addSet v a.timezones }
  | .countries => { a with countries := addSet v a.countries }
  | .languages => { a with languages := addSet v a.languages }
  | .devices => { a with devices := addSet v a.devices }
  | .usps => { a with usps := addSet v a.usps }

/-- `if k in body: _update_admin(c, body[k])` — the guarded update pattern. -/
def guardedUpdate (c : Cat) (k : String) (body : JVal) (a : AdminSets) : AdminSets :=
  match body with
  | .obj fs =>
    match lookupField fs k with
    | some v => update_admin c v a
    | none => a
  | _ => a

/-- Mutable module-level state of `processor.py` threaded through the run:
the site cache, the admin sets, the log of issued network calls, and the
admin output file (`_save_admin_data` writes it; `admin_writes` counts the
writes). -/
structure RunSt where
  sites_cache : List (JVal × JVal)
  admin : AdminSets
  calls : List String
  admin_writes : Nat
  admin_file : Option AdminSets
deriving DecidableEq

def dict_lookup (d : List (JVal × JVal)) (k : JVal) : Option JVal :=
  match d.find? (fun p => decide (p.1 = k)) with
  | some p => some p.2
  | none => none

def dict_insert (k v : JVal) (d : List (JVal × JVal)) : List (JVal × JVal) :=
  (k, v) :: d

def initSt : RunSt := ⟨[], emptyAdmin, [], 0, none⟩

/-- The configuration values `processor.py` reads from `config`. -/
structure Config where
  xmod_url : String
  page_size : Nat
  company_admin_role : JVal

/-- `urllib.parse.quote` restricted to the ASCII range (safe characters per
the Python default, including `/`); non-ASCII codepoints are kept verbatim,
which is exact for every input used in this development. -/
def quoteChar (c : Char) : String :=
  if c.isAlpha || c.isDigit || c = '_' || c = '.' || c = '~' || c = '-' || c = '/' then
    String.singleton c
  else if c.toNat < 128 then
    let hi := c.toNat / 16
    let lo := c.toNat % 16
    let hex := fun n => if n < 10 then Char.ofNat (48 + n) else Char.ofNat (55 + n)
    "%" ++ String.singleton (hex hi) ++ String.singleton (hex lo)
  else
    String.singleton c

def urlQuote (s : String) : String :=
  String.join (s.toList.map quoteChar)


/-! ## Request URLs as built by the source -/

def site_url (cfg : Config) (sid : String) : String :=
  cfg.xmod_url ++ "/api/xm/1/sites/" ++ sid

def sites_coll_url (cfg : Config) : String :=
  cfg.xmod_url ++ "/api/xm/1/sites?offset=0&limit=" ++ toString cfg.page_size

def person_url (cfg : Config) (uid : String) : String :=
  cfg.xmod_url ++ "/api/xm/1/people/" ++ urlQuote uid ++ "?embed=roles,supervisors"

def people_coll_url (cfg : Config) : String :=
  cfg.xmod_url ++ "/api/xm/1/people?offset=0&limit=" ++ toString cfg.page_size

def devices_url (cfg : Config) (uid : String) : String :=
  cfg.xmod_url ++ "/api/xm/1/people/" ++ uid ++ "/devices/?embed=timeframes&offset=0&limit=" ++ toString cfg.page_size

def group_url (cfg : Config) (gid : String) : String :=
  cfg.xmod_url ++ "/api/xm/1/groups/" ++ urlQuote gid ++ "?embed=supervisors"

def groups_coll_url (cfg : Config) : String :=
  cfg.xmod_url ++ "/api/xm/1/groups?offset=0&limit=" ++ toString cfg.page_size

def shifts_url (cfg : Config) (gid : String) : String :=
  cfg.xmod_url ++ "/api/xm/1/groups/" ++ gid ++ "/shifts/?embed=members&offset=0&limit=" ++ toString cfg.page_size

/-! ## `_lookup_site_name` and `_process_sites` -/

/-- `_lookup_site_name(site_id)`: cache lookup, else a single-resource GET.
Statuses outside `{200, 404}` cache and return `None`; any other response
(200 as well as 404, per the source) is parsed as a site object. -/
def lookup_site_name (cfg : Config) (fetch : String → FetchResult)
    (site_id : JVal) (st : RunSt) : Except PyErr (JVal × RunSt) :=
  match dict_lookup st.sites_cache site_id with
  | some v => .ok (v, st)
  | none => do
    let sid ← asStrE site_id
    let url := site_url cfg sid
    let st := { st with calls := st.calls ++ [url] }
    match fetch url with
    | .exn => .error .transportError
    | .resp status body =>
      if status ≠ 200 ∧ status ≠ 404 then
        .ok (JVal.null, { st with sites_cache := dict_insert site_id JVal.null st.sites_cache })
      else do
        let i ← getField body "id"
        let n ← getField body "name"
        .ok (n, { st with sites_cache := dict_insert i n st.sites_cache })

/-- The `for body in bodys["data"]` loop of `_process_sites`: log (reads
`body["name"]`), dump, separator chosen by `cnt < total_sites`, cache the
site, then the guarded admin updates. -/
def sites_page (total : Int) :
    List JVal → List Tok → Nat → RunSt → Except PyErr (List Tok × Nat × RunSt)
  | [], toks, cnt, st => .ok (toks, cnt, st)
  | body :: rest, toks, cnt, st => do
    let cnt := cnt + 1
    let _ ← getField body "name"
    let toks := toks ++ [Tok.record body]
    let toks := toks ++ (if (cnt : Int) < total then [Tok.comma, Tok.newline] else [Tok.newline])
    let i ← getField body "id"
    let n ← getField body "name"
    let st := { st with sites_cache := dict_insert i n st.sites_cache }
    let st := { st with admin := guardedUpdate .languages "language" body st.admin }
    let st := { st with admin := guardedUpdate .timezones "timezone" body st.admin }
    let st := { st with admin := guardedUpdate .countries "country" body st.admin }
    sites_page total rest toks cnt st

/-- Resolving `"links" in bodys and "next" in bodys["links"]` into the URL
of the next page, shared by all four pagination loops. -/
def nextPageUrl (cfg : Config) (body : JVal) : Except PyErr (Option String) :=
  if hasKey body "links" then do
    let lk ← getField body "links"
    if hasKey lk "next" then do
      let nx ← asStrE (← getField lk "next")
      pure (some (cfg.xmod_url ++ nx))
    else
      pure none
  else
    pure none

/-- The `while True` loop of `_process_sites`, bounded by fuel.  A status
other than 200 breaks; otherwise the page is parsed and its records
processed, and traversal follows `links.next` when present. -/
def sites_loop (cfg : Config) (fetch : String → FetchResult) :
    Nat → String → List Tok → Nat → Int → RunSt → Except PyErr (List Tok × Nat × Int × RunSt)
  | 0, _, _, _, _, _ => .error .nonTermination
  | fuel + 1, url, toks, cnt, total, st => do
    let st := { st with calls := st.calls ++ [url] }
    match fetch url with
    | .exn => .error .transportError
    | .resp status body =>
      if status ≠ 200 then
        .ok (toks, cnt, total, st)
      else do
        let total ← asIntE (← getField body "total")
        let count ← asIntE (← getField body "count")
        let (toks, cnt, st) ←
          if count > 0 then do
            let d ← asArrE (← getField body "data")
            sites_page total d toks cnt st
          else
            pure (toks, cnt, st)
        match ← nextPageUrl cfg body with
        | some u => sites_loop cfg fetch fuel u toks cnt total st
        | none => .ok (toks, cnt, total, st)

/-- `_process_sites()`: open the sites file, write `"[\n"`, run the page
loop from the initial collection URL, then write `"]"` and close.  Returns
the token list of the closed file. -/
def process_sites (cfg : Config) (fetch : String → FetchResult) (fuel : Nat)
    (st : RunSt) : Except PyErr (List Tok × RunSt) := do
  let toks0 : List Tok := [Tok.lbrack, Tok.newline]
  let url0 := sites_coll_url cfg
  let (toks, _cnt, _total, st) ← sites_loop cfg fetch fuel url0 toks0 0 0 st
  .ok (toks ++ [Tok.rbrack], st)

/-! ## `_get_user_devices`, `_get_user` and `_process_users` -/

/-- The per-device part of `_get_user_devices`: the guarded timeframe
timezone updates, the composite `deviceType|name` key, and the guarded
provider id. -/
def devices_admin : List JVal → RunSt → Except PyErr RunSt
  | [], st => .ok st
  | body :: rest, st => do
    let st ←
      if hasKey body "timeframes" then do
        let tfs ← asArrE (← getField body "timeframes")
        pure { st with admin := tfs.foldl (fun a tf => guardedUpdate .timezones "timezone" tf a) st.admin }
      else
        pure st
    let dt ← asStrE (← getField body "deviceType")
    let nm ← asStrE (← getField body "name")
    let st := { st with admin := update_admin .devices (JVal.str (dt ++ "|" ++ nm)) st.admin }
    let st ←
      if hasKey body "provider" then do
        let pv ← getField body "provider"
        let pid ← getField pv "id"
        pure { st with admin := update_admin .usps pid st.admin }
      else
        pure st
    devices_admin rest st

/-- The `while True` loop of `_get_user_devices`.  Note the source lets a
404 through the status check and then reads `bodys["total"]` from the
response body. -/
def devices_loop (cfg : Config) (fetch : String → FetchResult) :
    Nat → String → List JVal → RunSt → Except PyErr (List JVal × RunSt)
  | 0, _, _, _ => .error .nonTermination
  | fuel + 1, url, device_list, st => do
    let st := { st with calls := st.calls ++ [url] }
    match fetch url with
    | .exn => .error .transportError
    | .resp status body =>
      if status ≠ 200 ∧ status ≠ 404 then
        .ok (device_list, st)
      else do
        let _total ← asIntE (← getField body "total")
        let count ← asIntE (← getField body "count")
        let (device_list, st) ←
          if count > 0 then do
            let d ← asArrE (← getField body "data")
            let st ← devices_admin d st
            pure (device_list ++ d, st)
          else
            pure (device_list, st)
        match ← nextPageUrl cfg body with
        | some u => devices_loop cfg fetch fuel u device_list st
        | none => .ok (device_list, st)

/-- `_get_user_devices(user_id, target_name)`. -/
def get_user_devices (cfg : Config) (fetch : String → FetchResult) (fuel : Nat)
    (user_id : JVal) (st : RunSt) : Except PyErr (List JVal × RunSt) := do
  let uid ← asStrE user_id
  let url := devices_url cfg uid
  devices_loop cfg fetch fuel url [] st

/-- The `for role in user_obj["roles"]["data"]` loop of `_get_user`: every
role name goes into the `roles` set, and the `targetName` of the user into
`admins` when the name equals the configured company-admin role. -/
def roles_fold (cfg : Config) (user_obj : JVal) : List JVal → RunSt → Except PyErr RunSt
  | [], st => .ok st
  | role :: rest, st => do
    let rname ← getField role "name"
    let st := { st with admin := update_admin .roles rname st.admin }
    let st ←
      if rname = cfg.company_admin_role then do
        let tn ← getField user_obj "targetName"
        pure { st with admin := update_admin .admins tn st.admin }
      else
        pure st
    roles_fold cfg user_obj rest st

/-- `_get_user(user_id, target_name)`: a caught transport exception or a
non-200 status returns `None`; otherwise the debug log reads
`firstName`/`lastName`/`id`, the guarded language/timezone updates run,
and the embedded roles are folded into the admin sets. -/
def get_user (cfg : Config) (fetch : String → FetchResult)
    (user_id : JVal) (st : RunSt) : Except PyErr (Option JVal × RunSt) := do
  let uid ← asStrE user_id
  let url := person_url cfg uid
  let st := { st with calls := st.calls ++ [url] }
  match fetch url with
  | .exn => .ok (none, st)
  | .resp status body =>
    if status ≠ 200 then
      .ok (none, st)
    else do
      let _ ← asStrE (← getField body "firstName")
      let _ ← asStrE (← getField body "lastName")
      let _ ← getField body "id"
      let st := { st with admin := guardedUpdate .languages "language" body st.admin }
      let st := { st with admin := guardedUpdate .timezones "timezone" body st.admin }
      let st ←
        if hasKey body "roles" then do
          let roles ← getField body "roles"
          let tot ← asIntE (← getField roles "total")
          if tot > 0 then do
            let rolesData ← asArrE (← getField roles "data")
            roles_fold cfg body rolesData st
          else
            pure st
        else
          pure st
      .ok (some body, st)

/-- The `for body in bodys["data"]` loop of `_process_users`: fetch the
full user; a `None` result skips the record, otherwise build the
`{"user": ..., "devices": ...}` wrapper, bump `cnt` and dump it with the
separator chosen by `cnt < total_users`. -/
def users_page (cfg : Config) (fetch : String → FetchResult) (fuel : Nat)
    (include_devices : Bool) (total : Int) :
    List JVal → List Tok → Nat → RunSt → Except PyErr (List Tok × Nat × RunSt)
  | [], toks, cnt, st => .ok (toks, cnt, st)
  | body :: rest, toks, cnt, st => do
    let bid ← getField body "id"
    let _btn ← getField body "targetName"
    let (a_user?, st) ← get_user cfg fetch bid st
    let (toks, cnt, st) ←
      match a_user? with
      | none => pure (toks, cnt, st)
      | some a_user => do
        let (wrapper, st) ←
          if include_devices then do
            let uid ← getField a_user "id"
            let _utn ← getField a_user "targetName"
            let (devs, st) ← get_user_devices cfg fetch fuel uid st
            pure (JVal.obj [("user", a_user), ("devices", JVal.arr devs)], st)
          else
            pure (JVal.obj [("user", a_user)], st)
        let cnt := cnt + 1
        let toks := toks ++ [Tok.record wrapper] ++
          (if (cnt : Int) < total then [Tok.comma, Tok.newline] else [Tok.newline])
        pure (toks, cnt, st)
    users_page cfg fetch fuel include_devices total rest toks cnt st

/-- The `while True` loop of `_process_users` (accepted statuses
`{200, 404}` as in the source). -/
def users_loop (cfg : Config) (fetch : String → FetchResult) (include_devices : Bool) :
    Nat → String → List Tok → Nat → Int → RunSt → Except PyErr (List Tok × Nat × Int × RunSt)
  | 0, _, _, _, _, _ => .error .nonTermination
  | fuel + 1, url, toks, cnt, total, st => do
    let st := { st with calls := st.calls ++ [url] }
    match fetch url with
    | .exn => .error .transportError
    | .resp status body =>
      if status ≠ 200 ∧ status ≠ 404 then
        .ok (toks, cnt, total, st)
      else do
        let total ← asIntE (← getField body "total")
        let count ← asIntE (← getField body "count")
        let (toks, cnt, st) ←
          if count > 0 then do
            let d ← asArrE (← getField body "data")
            users_page cfg fetch (fuel + 1) include_devices total d toks cnt st
          else
            pure (toks, cnt, st)
        match ← nextPageUrl cfg body with
        | some u => users_loop cfg fetch include_devices fuel u toks cnt total st
        | none => .ok (toks, cnt, total, st)

/-- `_process_users(include_devices)`. -/
def process_users (cfg : Config) (fetch : String → FetchResult) (fuel : Nat)
    (include_devices : Bool) (st : RunSt) : Except PyErr (List Tok × RunSt) := do
  let toks0 : List Tok := [Tok.lbrack, Tok.newline]
  let url0 := people_coll_url cfg
  let (toks, _cnt, _total, st) ← users_loop cfg fetch include_devices fuel url0 toks0 0 0 st
  .ok (toks ++ [Tok.rbrack], st)

/-! ## `_get_group`, `_get_group_shifts` and `_process_groups` -/

/-- `_get_group(group_id, target_name)`: a caught transport exception or a
non-200 status returns `None`; otherwise, when the record has a `site`
field, its `id` is resolved through the site cache and the field is
replaced by the resolved name, then the debug log reads
`targetName`/`id`. -/
def get_group (cfg : Config) (fetch : String → FetchResult)
    (group_id : JVal) (st : RunSt) : Except PyErr (Option JVal × RunSt) := do
  let gid ← asStrE group_id
  let url := group_url cfg gid
  let st := { st with calls := st.calls ++ [url] }
  match fetch url with
  | .exn => .ok (none, st)
  | .resp status body =>
    if status ≠ 200 then
      .ok (none, st)
    else do
      let (body, st) ←
        if hasKey body "site" then do
          let siteField ← getField body "site"
          let sid ← getField siteField "id"
          let (site_name, st) ← lookup_site_name cfg fetch sid st
          pure (setField body "site" site_name, st)
        else
          pure (body, st)
      let _ ← getField body "targetName"
      let _ ← getField body "id"
      .ok (some body, st)

/-- The `while True` loop of `_get_group_shifts` (accepted statuses
`{200, 404}`, same latent 404 parse as the devices loop). -/
def shifts_loop (cfg : Config) (fetch : String → FetchResult) :
    Nat → String → List JVal → RunSt → Except PyErr (List JVal × RunSt)
  | 0, _, _, _ => .error .nonTermination
  | fuel + 1, url, shift_list, st => do
    let st := { st with calls := st.calls ++ [url] }
    match fetch url with
    | .exn => .error .transportError
    | .resp status body =>
      if status ≠ 200 ∧ status ≠ 404 then
        .ok (shift_list, st)
      else do
        let _total ← asIntE (← getField body "total")
        let count ← asIntE (← getField body "count")
        let shift_list ←
          if count > 0 then do
            let d ← asArrE (← getField body "data")
            pure (shift_list ++ d)
          else
            pure shift_list
        match ← nextPageUrl cfg body with
        | some u => shifts_loop cfg fetch fuel u shift_list st
        | none => .ok (shift_list, st)

/-- `_get_group_shifts(group_id, target_name)`. -/
def get_group_shifts (cfg : Config) (fetch : String → FetchResult) (fuel : Nat)
    (group_id : JVal) (st : RunSt) : Except PyErr (List JVal × RunSt) := do
  let gid ← asStrE group_id
  let url := shifts_url cfg gid
  shifts_loop cfg fetch fuel url [] st

/-- The `for body in bodys["data"]` loop of `_process_groups`. -/
def groups_page (cfg : Config) (fetch : String → FetchResult) (fuel : Nat) (total : Int) :
    List JVal → List Tok → Nat → RunSt → Except PyErr (List Tok × Nat × RunSt)
  | [], toks, cnt, st => .ok (toks, cnt, st)
  | body :: rest, toks, cnt, st => do
    let bid ← getField body "id"
    let _btn ← getField body "targetName"
    let (a_group?, st) ← get_group cfg fetch bid st
    let (toks, cnt, st) ←
      match a_group? with
      | none => pure (toks, cnt, st)
      | some a_group => do
        let gid ← getField a_group "id"
        let _gtn ← getField a_group "targetName"
        let (shifts, st) ← get_group_shifts cfg fetch fuel gid st
        let wrapper := JVal.obj [("group", a_group), ("shifts", JVal.arr shifts)]
        let cnt := cnt + 1
        let toks := toks ++ [Tok.record wrapper] ++
          (if (cnt : Int) < total then [Tok.comma, Tok.newline] else [Tok.newline])
        pure (toks, cnt, st)
    groups_page cfg fetch fuel total rest toks cnt st

/-- The `while True` loop of `_process_groups` (accepted statuses
`{200, 404}` as in the source). -/
def groups_loop (cfg : Config) (fetch : String → FetchResult) :
    Nat → String → List Tok → Nat → Int → RunSt → Except PyErr (List Tok × Nat × Int × RunSt)
  | 0, _, _, _, _, _ => .error .nonTermination
  | fuel + 1, url, toks, cnt, total, st => do
    let st := { st with calls := st.calls ++ [url] }
    match fetch url with
    | .exn => .error .transportError
    | .resp status body =>
      if status ≠ 200 ∧ status ≠ 404 then
        .ok (toks, cnt, total, st)
      else do
        let total ← asIntE (← getField body "total")
        let count ← asIntE (← getField body "count")
        let (toks, cnt, st) ←
          if count > 0 then do
            let d ← asArrE (← getField body "data")
            groups_page cfg fetch (fuel + 1) total d toks cnt st
          else
            pure (toks, cnt, st)
        match ← nextPageUrl cfg body with
        | some u => groups_loop cfg fetch fuel u toks cnt total st
        | none => .ok (toks, cnt, total, st)

/-- `_process_groups()`. -/
def process_groups (cfg : Config) (fetch : String → FetchResult) (fuel : Nat)
    (st : RunSt) : Except PyErr (List Tok × RunSt) := do
  let toks0 : List Tok := [Tok.lbrack, Tok.newline]
  let url0 := groups_coll_url cfg
  let (toks, _cnt, _total, st) ← groups_loop cfg fetch fuel url0 toks0 0 0 st
  .ok (toks ++ [Tok.rbrack], st)

/-! ## `_save_admin_data` and `process` -/

/-- `_save_admin_data()`: serialize the seven admin sets as arrays into the
admin output file (modelled as storing the sets and counting the write). -/
def save_admin_data (st : RunSt) : RunSt :=
  { st with admin_file := some st.admin, admin_writes := st.admin_writes + 1 }

/-- Result of one `process` run: the closed token lists of the output files
that were produced, and the final module state. -/
structure ProcOut where
  sites_out : Option (List Tok)
  users_out : Option (List Tok)
  groups_out : Option (List Tok)
  final : RunSt
deriving DecidableEq

/-- `process(objects_to_process)`: re-initialize the admin sets, run the
requested capture routines in the fixed sites → users → groups order
(`"devices"` alone also triggers the users routine with devices), then
save the admin data. -/
def process (cfg : Config) (fetch : String → FetchResult) (fuel : Nat)
    (objects_to_process : List String) (st : RunSt) : Except PyErr ProcOut := do
  let st := { st with admin := emptyAdmin }
  let (sites_out, st) ←
    if "sites" ∈ objects_to_process then do
      let (t, st) ← process_sites cfg fetch fuel st
      pure (some t, st)
    else
      pure (none, st)
  let (users_out, st) ←
    if "users" ∈ objects_to_process then do
      let (t, st) ← process_users cfg fetch fuel ("devices" ∈ objects_to_process) st
      pure (some t, st)
    else
      if "devices" ∈ objects_to_process then do
        let (t, st) ← process_users cfg fetch fuel true st
        pure (some t, st)
      else
        pure (none, st)
  let (groups_out, st) ←
    if "groups" ∈ objects_to_process then do
      let (t, st) ← process_groups cfg fetch fuel st
      pure (some t, st)
    else
      pure (none, st)
  let st := save_admin_data st
  .ok ⟨sites_out, users_out, groups_out, st⟩

/-! ## JSON-array well-formedness of output token lists -/

/-- Drop whitespace tokens; JSON validity is judged modulo whitespace. -/
def stripWs : List Tok → List Tok
  | [] => []
  | Tok.newline :: rest => stripWs rest
  | t :: rest => t :: stripWs rest

/-- Checks the tokens that follow an array element: either the closing
bracket, or a comma followed by another element. -/
def validTail : List Tok → Bool
  | [Tok.rbrack] => true
  | Tok.comma :: Tok.record _ :: rest => validTail rest
  | _ => false

/-- The token list spells a syntactically valid JSON array: `[`, then
comma-separated elements with no trailing comma, then `]`. -/
def json_array_ok (ts : List Tok) : Bool :=
  match stripWs ts with
  | [Tok.lbrack, Tok.rbrack] => true
  | Tok.lbrack :: Tok.record _ :: rest => validTail rest
  | _ => false

/-- Comma-separated element tokens (no whitespace) for a record list. -/
def sepPlain : List JVal → List Tok
  | [] => []
  | [r] => [Tok.record r]
  | r :: r2 :: rs => Tok.record r :: Tok.comma :: sepPlain (r2 :: rs)

/-- The block of tokens the capture loops emit for records `rs` written
with the running count starting at `cnt` against declared total `N`:
each record, then `,\n` while the bumped count is below `N`, else `\n`. -/
def seppedFrom (cnt : Nat) (N : Int) : List JVal → List Tok
  | [] => []
  | r :: rs =>
    Tok.record r ::
      ((if ((cnt + 1 : Nat) : Int) < N then [Tok.comma, Tok.newline] else [Tok.newline]) ++
        seppedFrom (cnt + 1) N rs)

/-- The record payloads appearing in a token list. -/
def recordsOf : List Tok → List JVal
  | [] => []
  | Tok.record j :: rest => j :: recordsOf rest
  | _ :: rest => recordsOf rest

/-! ## Page bodies in the wire format the loops consume -/

/-- A collection page body `{total, count, data, links?}`. -/
def pageJ (total count : Int) (data : List JVal) (next : Option String) : JVal :=
  .obj ([("total", JVal.num total), ("count", JVal.num count), ("data", JVal.arr data)] ++
    (match next with
     | some n => [("links", JVal.obj [("next", JVal.str n)])]
     | none => []))

/-- The error body the service returns with a non-2xx status, in the shape
`_log_xm_error` expects (`code`, `reason`, `message`). -/
def errBody (code : Int) (reason message : String) : JVal :=
  .obj [("code", JVal.num code), ("reason", JVal.str reason), ("message", JVal.str message)]

/-! ## Derived predicates, scenario data and page chains -/

def cfgX : Config := ⟨"https://x", 100, JVal.str "Company Admin"⟩

def siteA : JVal := .obj [("id", JVal.str "A"), ("name", JVal.str "Site A")]

def siteB : JVal := .obj [("id", JVal.str "B"), ("name", JVal.str "Site B")]

def siteC : JVal := .obj [("id", JVal.str "C"), ("name", JVal.str "Site C")]

def fetch_two_pages : String → FetchResult := fun url =>
  if url = sites_coll_url cfgX then
    .resp 200 (pageJ 3 2 [siteA, siteB] (some "/p2"))
  else if url = "https://x/p2" then
    .resp 200 (pageJ 3 1 [siteC] none)
  else
    .resp 500 (errBody 500 "Internal Error" "server error")

def fetch_page2_fails : String → FetchResult := fun url =>
  if url = sites_coll_url cfgX then
    .resp 200 (pageJ 3 2 [siteA, siteB] (some "/p2"))
  else
    .resp 500 (errBody 500 "Internal Error" "server error")

def fetch_site_404 : String → FetchResult := fun _ =>
  .resp 404 (errBody 404 "Not Found" "Could not find a site with id S1")

def sepCont : List JVal → List Tok
  | [] => []
  | r :: rs => Tok.comma :: Tok.record r :: sepCont rs

/-- The cache update a processed site record performs (`_sites_cache[body["id"]] = body["name"]`). -/
def insSite (c : List (JVal × JVal)) (r : JVal) : List (JVal × JVal) :=
  match getField r "id", getField r "name" with
  | .ok i, .ok n => dict_insert i n c
  | _, _ => c

/-- A terminating chain of successfully fetched collection pages: every
fetch from `url` onward returns HTTP 200 with a well-formed page whose
declared total is `N`, the pages carry the record lists `dss` in order,
and the last page has no `links.next`. -/
inductive PageChain (cfg : Config) (fetch : String → FetchResult) (N : Int) :
    String → List (List JVal) → Prop where
  | last (url : String) (ds : List JVal)
      (h : fetch url = .resp 200 (pageJ N ds.length ds none)) :
      PageChain cfg fetch N url [ds]
  | step (url : String) (ds : List JVal) (nxt : String) (rest : List (List JVal))
      (h : fetch url = .resp 200 (pageJ N ds.length ds (some nxt)))
      (hrest : PageChain cfg fetch N (cfg.xmod_url ++ nxt) rest) :
      PageChain cfg fetch N url (ds :: rest)

/-- All seven admin sets are duplicate-free. -/
def NodupAll (a : AdminSets) : Prop :=
  a.admins.Nodup ∧ a.roles.Nodup ∧ a.timezones.Nodup ∧ a.countries.Nodup ∧
    a.languages.Nodup ∧ a.devices.Nodup ∧ a.usps.Nodup

/-- Replaying an arbitrary sequence of `record(category, value)` operations
against the freshly initialized admin sets. -/
def recordAll (ops : List (Cat × JVal)) : AdminSets :=
  ops.foldl (fun a p => update_admin p.1 p.2 a) emptyAdmin

/-- The outcome of the per-record user detail fetch: the full user body on
HTTP 200, `none` (skip) otherwise. -/
def fetched_user (cfg : Config) (fetch : String → FetchResult) (r : JVal) : Option JVal :=
  match getField r "id" with
  | .ok (JVal.str uid) =>
    match fetch (person_url cfg uid) with
    | .resp 200 b => some b
    | _ => none
  | _ => none

/-- A user detail body the embedded `_get_user` can process to completion. -/
def well_user (b : JVal) : Prop :=
  ∃ fs, b = JVal.obj fs ∧
    (∃ fn, lookupField fs "firstName" = some (JVal.str fn)) ∧
    (∃ ln, lookupField fs "lastName" = some (JVal.str ln)) ∧
    (∃ idv, lookupField fs "id" = some idv) ∧
    (∃ tn, lookupField fs "targetName" = some tn) ∧
    (lookupField fs "roles" = none ∨
      ∃ t rs, lookupField fs "roles" =
          some (JVal.obj [("total", JVal.num t), ("data", JVal.arr rs)]) ∧
        ∀ r2 ∈ rs, ∃ n, getField r2 "name" = .ok n)

/-- Hypotheses on one user collection record: its id and targetName are
readable, and its detail fetch either fails (transport or non-200 status)
or returns a processable user body. -/
def users_rec_hyp (cfg : Config) (fetch : String → FetchResult) (r : JVal) : Prop :=
  (∃ uid, getField r "id" = .ok (JVal.str uid)) ∧
  (∃ tn, getField r "targetName" = .ok tn) ∧
  (∀ uid, getField r "id" = .ok (JVal.str uid) →
    fetch (person_url cfg uid) = .exn ∨
    (∃ s b, fetch (person_url cfg uid) = .resp s b ∧ s ≠ 200) ∨
    (∃ b, fetch (person_url cfg uid) = .resp 200 b ∧ well_user b))

/-- The outcome of the per-record group detail fetch: the group body on
HTTP 200, `none` (skip) otherwise. -/
def fetched_group (cfg : Config) (fetch : String → FetchResult) (r : JVal) : Option JVal :=
  match getField r "id" with
  | .ok (JVal.str gid) =>
    match fetch (group_url cfg gid) with
    | .resp 200 b => some b
    | _ => none
  | _ => none

/-- A group detail body the embedded `_get_group` can process to completion
without touching the site cache (no `site` field), whose shifts
sub-collection fetch fails with a status outside `{200, 404}` (yielding an
empty shift list). -/
def well_group (cfg : Config) (fetch : String → FetchResult) (b : JVal) : Prop :=
  ∃ fs, b = JVal.obj fs ∧
    lookupField fs "site" = none ∧
    (∃ tn, lookupField fs "targetName" = some tn) ∧
    (∃ gid2, lookupField fs "id" = some (JVal.str gid2) ∧
      ∃ s2 b2, fetch (shifts_url cfg gid2) = .resp s2 b2 ∧ s2 ≠ 200 ∧ s2 ≠ 404)

/-- Hypotheses on one group collection record, mirroring `users_rec_hyp`. -/
def groups_rec_hyp (cfg : Config) (fetch : String → FetchResult) (r : JVal) : Prop :=
  (∃ gid, getField r "id" = .ok (JVal.str gid)) ∧
  (∃ tn, getField r "targetName" = .ok tn) ∧
  (∀ gid, getField r "id" = .ok (JVal.str gid) →
    fetch (group_url cfg gid) = .exn ∨
    (∃ s b, fetch (group_url cfg gid) = .resp s b ∧ s ≠ 200) ∨
    (∃ b, fetch (group_url cfg gid) = .resp 200 b ∧ well_group cfg fetch b))

/-- A record benign for every per-record path of the four capture loops:
readable string `id`/`name`/`deviceType`, a `targetName`, and no
`timeframes`/`provider` keys. -/
def benign_rec (j : JVal) : Prop :=
  ∃ fs, j = JVal.obj fs ∧
    (∃ i, lookupField fs "id" = some (JVal.str i)) ∧
    (∃ nm, lookupField fs "name" = some (JVal.str nm)) ∧
    (∃ tn, lookupField fs "targetName" = some tn) ∧
    (∃ dt, lookupField fs "deviceType" = some (JVal.str dt)) ∧
    lookupField fs "timeframes" = none ∧
    lookupField fs "provider" = none

/-- A response body benign for every fetch site: a benign record that is
also a single well-formed page (numeric `total`/`count`, benign `data`,
no `links`), carries string `firstName`/`lastName`, and has no `roles` or
`site` key. -/
def benign_body (j : JVal) : Prop :=
  ∃ fs, j = JVal.obj fs ∧
    benign_rec j ∧
    (∃ fn, lookupField fs "firstName" = some (JVal.str fn)) ∧
    (∃ ln, lookupField fs "lastName" = some (JVal.str ln)) ∧
    (∃ t, lookupField fs "total" = some (JVal.num t)) ∧
    (∃ c, lookupField fs "count" = some (JVal.num c)) ∧
    (∃ ds, lookupField fs "data" = some (JVal.arr ds) ∧ ∀ r ∈ ds, benign_rec r) ∧
    lookupField fs "links" = none ∧
    lookupField fs "roles" = none ∧
    lookupField fs "site" = none

/-- A server that never raises a transport exception and answers every
request with a benign body (under an arbitrary status). -/
def benign_server (fetch : String → FetchResult) : Prop :=
  ∀ url, ∃ s b, fetch url = .resp s b ∧ benign_body b

def grpW : JVal := JVal.obj [("id", JVal.str "G1"), ("targetName", JVal.str "Ops Team"),
  ("site", JVal.obj [("id", JVal.str "S9")])]

def fetchC10W : String → FetchResult := fun url =>
  if url = group_url cfgX "G1" then
    .resp 200 grpW
  else
    .resp 500 (errBody 500 "Internal Error" "boom")

def siteS1 : JVal := JVal.obj [("id", JVal.str "S1"), ("name", JVal.str "Boston HQ")]

def grpC7 : JVal := JVal.obj [("id", JVal.str "G1"), ("targetName", JVal.str "Ops Team"),
  ("site", JVal.obj [("id", JVal.str "S1")])]

def fetchC7W : String → FetchResult := fun url =>
  if url = sites_coll_url cfgX then
    .resp 200 (pageJ 1 1 [siteS1] none)
  else if url = group_url cfgX "G1" then
    .resp 200 grpC7
  else
    .resp 500 (errBody 500 "Internal Error" "boom")

def userC8 : JVal := JVal.obj [("id", JVal.str "U1"), ("targetName", JVal.str "mmcbride"),
  ("firstName", JVal.str "Mary"), ("lastName", JVal.str "McBride"),
  ("roles", JVal.obj [("total", JVal.num 2),
    ("data", JVal.arr [JVal.obj [("name", JVal.str "Company Admin")],
      JVal.obj [("name", JVal.str "Viewer")]])])]

def fetchC8W : String → FetchResult := fun url =>
  if url = person_url cfgX "U1" then
    .resp 200 userC8
  else
    .resp 500 (errBody 500 "Internal Error" "boom")

def uRec1 : JVal := JVal.obj [("id", JVal.str "U1"), ("targetName", JVal.str "alice")]

def uRec2 : JVal := JVal.obj [("id", JVal.str "U2"), ("targetName", JVal.str "bob")]

def uBody1 : JVal := JVal.obj [("firstName", JVal.str "Alice"), ("lastName", JVal.str "Liddell"),
  ("id", JVal.str "U1"), ("targetName", JVal.str "alice")]

def gRec1 : JVal := JVal.obj [("id", JVal.str "G1"), ("targetName", JVal.str "grp one")]

def gRec2 : JVal := JVal.obj [("id", JVal.str "G2"), ("targetName", JVal.str "grp two")]

def gBody1 : JVal := JVal.obj [("id", JVal.str "G1"), ("targetName", JVal.str "grp one")]

def fetchC4W : String → FetchResult := fun url =>
  if url = person_url cfgX "U1" then
    .resp 200 uBody1
  else if url = group_url cfgX "G1" then
    .resp 200 gBody1
  else if url = group_url cfgX "G2" then
    .exn
  else
    .resp 500 (errBody 500 "Internal Error" "boom")

def benignItemW : JVal := JVal.obj [("id", JVal.str "X"), ("name", JVal.str "Home Email"),
  ("targetName", JVal.str "xw"), ("deviceType", JVal.str "EMAIL")]

def benignW : JVal := JVal.obj [("id", JVal.str "X"), ("name", JVal.str "Home Email"),
  ("targetName", JVal.str "xw"), ("deviceType", JVal.str "EMAIL"),
  ("firstName", JVal.str "Xavier"), ("lastName", JVal.str "Walsh"),
  ("total", JVal.num 1), ("count", JVal.num 1), ("data", JVal.arr [benignItemW])]

def fetchBenignW : String → FetchResult := fun _ => .resp 200 benignW

def userC5 : JVal := JVal.obj [("id", JVal.str "U1"), ("targetName", JVal.str "u.one"),
  ("firstName", JVal.str "Uma"), ("lastName", JVal.str "One")]

def userC5b : JVal := JVal.obj [("id", JVal.str "U2"), ("targetName", JVal.str "u.two"),
  ("firstName", JVal.str "Ugo"), ("lastName", JVal.str "Two")]

def fetchC5W : String → FetchResult := fun url =>
  if url = people_coll_url cfgX then
    .resp 200 (pageJ 2 2 [userC5, userC5b] none)
  else if url = person_url cfgX "U1" then
    .resp 200 userC5
  else if url = devices_url cfgX "U1" then
    .resp 404 (errBody 404 "Not Found" "no such person")
  else
    .resp 200 userC5b

/-! ## Lemmas and claim theorems -/

/-- Claim C6 (confirmed): when the sites collection returns two pages (page 1: total 3, count 2, data `[A, B]` with a next link; page 2: total 3, count 1, data `[C]`, no next link) and nothing is skipped, the closed output file is the valid JSON array `[A, B, C]`: three elements in page-arrival order, a comma after A and after B and none after C. -/
theorem C6_two_page_collection_output :
    (process_sites cfgX fetch_two_pages 5 initSt).map Prod.fst =
      .ok [Tok.lbrack, Tok.newline,
        Tok.record siteA, Tok.comma, Tok.newline,
        Tok.record siteB, Tok.comma, Tok.newline,
        Tok.record siteC, Tok.newline, Tok.rbrack] ∧
    json_array_ok [Tok.lbrack, Tok.newline,
        Tok.record siteA, Tok.comma, Tok.newline,
        Tok.record siteB, Tok.comma, Tok.newline,
        Tok.record siteC, Tok.newline, Tok.rbrack] = true := by
  constructor
  · rfl
  · rfl

/-- Claim C1, counterexample: when the second sites page fetch fails with HTTP 500, the routine still closes the file, but the written token stream ends with a trailing comma before the closing bracket, so the file is NOT a syntactically valid JSON array — refuting the claim as stated. -/
theorem C1_counterexample_fetch_failure_invalid_json :
    (process_sites cfgX fetch_page2_fails 5 initSt).map Prod.fst =
      .ok [Tok.lbrack, Tok.newline,
        Tok.record siteA, Tok.comma, Tok.newline,
        Tok.record siteB, Tok.comma, Tok.newline, Tok.rbrack] ∧
    json_array_ok [Tok.lbrack, Tok.newline,
        Tok.record siteA, Tok.comma, Tok.newline,
        Tok.record siteB, Tok.comma, Tok.newline, Tok.rbrack] = false := ⟨rfl, rfl⟩

/-- Claim C2, counterexample: a transport-level exception during the sites collection page fetch is not caught anywhere, so `process` aborts with the propagated error and the aggregated metadata file is never written — refuting the claim as stated for transport failures. -/
theorem C2_counterexample_transport_failure_fatal :
    process cfgX (fun _ => FetchResult.exn) 5 ["sites"] initSt = .error .transportError := rfl

/-- Claim C3 (code bug): a site-name lookup that misses the cache and receives HTTP 404 with the standard error body (`code`/`reason`/`message`) passes the accepted-status check and is then parsed as a site object, so reading `site["id"]` raises an uncaught KeyError; nothing is cached and no value is returned, contradicting the claim that a `None` result is cached on 404. -/
theorem C3_bug_404_lookup_keyerror :
    lookup_site_name cfgX fetch_site_404 (JVal.str "S1") initSt = .error .keyError := rfl

lemma lookupField_filter_append (fs : List (String × JVal)) (k k' : String) (v : JVal) :
    lookupField ((fs.filter (fun p => !decide (p.1 = k'))) ++ [(k', v)]) k =
      if k = k' then some v else lookupField fs k := by
  induction fs with
  | nil =>
    by_cases h : k = k'
    · simp [lookupField, h]
    · simp [lookupField, h, Ne.symm h]
  | cons p rest ih =>
    obtain ⟨a, b⟩ := p
    by_cases ha : a = k'
    · have hfilter : List.filter (fun q => !decide (q.1 = k')) ((a, b) :: rest)
          = List.filter (fun q => !decide (q.1 = k')) rest := by
        simp [List.filter_cons, ha]
      calc lookupField (List.filter (fun q => !decide (q.1 = k')) ((a, b) :: rest) ++ [(k', v)]) k
          = lookupField (List.filter (fun q => !decide (q.1 = k')) rest ++ [(k', v)]) k := by
            rw [hfilter]
        _ = if k = k' then some v else lookupField rest k := ih
        _ = if k = k' then some v else lookupField ((a, b) :: rest) k := by
            by_cases hk : k = k'
            · simp [hk]
            · have hne : a ≠ k := by rw [ha]; exact fun hh => hk hh.symm
              simp [hk, lookupField, hne]
    · have hfilter : List.filter (fun q => !decide (q.1 = k')) ((a, b) :: rest)
          = (a, b) :: List.filter (fun q => !decide (q.1 = k')) rest := by
        simp [List.filter_cons, ha]
      rw [hfilter]
      by_cases hak : a = k
      · have hk : ¬ k = k' := fun hh => ha (by rw [hak, hh])
        simp [lookupField, hak, hk]
      · simp [lookupField, hak, ih]

lemma getField_setField_self (fs : List (String × JVal)) (k : String) (v : JVal) :
    getField (setField (.obj fs) k v) k = .ok v := by
  simp [setField, getField, lookupField_filter_append]

lemma getField_setField_ne (fs : List (String × JVal)) (k k' : String) (v : JVal)
    (h : k ≠ k') :
    getField (setField (.obj fs) k' v) k = getField (.obj fs) k := by
  simp [setField, getField, lookupField_filter_append, h]

lemma lookup_site_name_hit (cfg : Config) (fetch : String → FetchResult)
    (sidJ v : JVal) (st : RunSt)
    (hhit : dict_lookup st.sites_cache sidJ = some v) :
    lookup_site_name cfg fetch sidJ st = .ok (v, st) := by
  simp [lookup_site_name, hhit]

lemma lookup_site_name_fail (cfg : Config) (fetch : String → FetchResult)
    (sid : String) (st : RunSt) (s : Nat) (b : JVal)
    (hmiss : dict_lookup st.sites_cache (JVal.str sid) = none)
    (hfail : fetch (site_url cfg sid) = .resp s b) (hs1 : s ≠ 200) (hs2 : s ≠ 404) :
    lookup_site_name cfg fetch (JVal.str sid) st =
      .ok (JVal.null,
        { st with
          calls := st.calls ++ [site_url cfg sid],
          sites_cache := dict_insert (JVal.str sid) JVal.null st.sites_cache }) := by
  simp [lookup_site_name, hmiss, asStrE, bind, Except.bind]
  rw [hfail]
  simp [hs1, hs2]

/-- Claim C10 (confirmed): when the site-name lookup of a group misses the cache and fails with an HTTP status other than 200 or 404, the group record is still returned for writing (not skipped) with its `site` field replaced by null, null is cached for that site id, and a repeated lookup of the same id returns null from the cache with no further network call. -/
theorem C10_failed_site_lookup_null_cached (cfg : Config) (fetch : String → FetchResult) (st : RunSt)
    (gid sid : String) (gfs : List (String × JVal)) (sObj tnv idv : JVal)
    (s : Nat) (b : JVal)
    (hg : fetch (group_url cfg gid) = .resp 200 (.obj gfs))
    (hsite : lookupField gfs "site" = some sObj)
    (hid : getField sObj "id" = .ok (JVal.str sid))
    (htn : lookupField gfs "targetName" = some tnv)
    (hgid : lookupField gfs "id" = some idv)
    (hmiss : dict_lookup st.sites_cache (JVal.str sid) = none)
    (hfail : fetch (site_url cfg sid) = .resp s b)
    (hs1 : s ≠ 200) (hs2 : s ≠ 404) :
    ∃ st', get_group cfg fetch (JVal.str gid) st =
        .ok (some (setField (.obj gfs) "site" JVal.null), st') ∧
      dict_lookup st'.sites_cache (JVal.str sid) = some JVal.null ∧
      lookup_site_name cfg fetch (JVal.str sid) st' = .ok (JVal.null, st') ∧
      st'.calls = st.calls ++ [group_url cfg gid, site_url cfg sid] := by
  have hcachehit : dict_lookup (dict_insert (JVal.str sid) JVal.null st.sites_cache)
      (JVal.str sid) = some JVal.null := by
    simp [dict_lookup, dict_insert, List.find?]
  refine ⟨{ st with
      calls := st.calls ++ [group_url cfg gid, site_url cfg sid],
      sites_cache := dict_insert (JVal.str sid) JVal.null st.sites_cache }, ?_, ?_, ?_, ?_⟩
  · have hfld : getField (JVal.obj gfs) "site" = .ok sObj := by simp [getField, hsite]
    have htn2 : getField (setField (JVal.obj gfs) "site" JVal.null) "targetName" = .ok tnv := by
      rw [getField_setField_ne gfs "targetName" "site" JVal.null (by decide)]
      simp [getField, htn]
    have hgid2 : getField (setField (JVal.obj gfs) "site" JVal.null) "id" = .ok idv := by
      rw [getField_setField_ne gfs "id" "site" JVal.null (by decide)]
      simp [getField, hgid]
    have hlk := lookup_site_name_fail cfg fetch sid
      { st with calls := st.calls ++ [group_url cfg gid] } s b hmiss hfail hs1 hs2
    simp [get_group, asStrE, bind, Except.bind]
    rw [hg]
    simp [hasKey, hsite, hfld]
    rw [hid]
    simp [hlk, htn2, hgid2, pure, Except.pure]
  · exact hcachehit
  · exact lookup_site_name_hit cfg fetch (JVal.str sid) JVal.null _ hcachehit
  · rfl

lemma validTail_sepCont : ∀ rs : List JVal, validTail (sepCont rs ++ [Tok.rbrack]) = true := by
  intro rs
  induction rs with
  | nil => rfl
  | cons r rest ih => simpa [sepCont, validTail] using ih

lemma stripWs_append (xs ys : List Tok) : stripWs (xs ++ ys) = stripWs xs ++ stripWs ys := by
  induction xs with
  | nil => rfl
  | cons t rest ih => cases t <;> simp [stripWs, ih]

lemma recordsOf_append (xs ys : List Tok) :
    recordsOf (xs ++ ys) = recordsOf xs ++ recordsOf ys := by
  induction xs with
  | nil => rfl
  | cons t rest ih => cases t <;> simp [recordsOf, ih]

lemma stripWs_seppedFrom : ∀ (rs : List JVal) (cnt : Nat) (N : Int),
    ((cnt + rs.length : Nat) : Int) = N →
    stripWs (seppedFrom cnt N rs) =
      (match rs with
       | [] => []
       | r :: rest => Tok.record r :: sepCont rest) := by
  intro rs
  induction rs with
  | nil => intro cnt N h; rfl
  | cons r rest ih =>
    intro cnt N h
    simp only [List.length_cons, List.length_nil] at h
    cases rest with
    | nil =>
      simp only [List.length_nil] at h
      have hN : ¬ (((cnt + 1 : Nat) : Int) < N) := by omega
      have step : seppedFrom cnt N [r] = [Tok.record r, Tok.newline] := by
        rw [seppedFrom, if_neg hN]
        rfl
      rw [step]
      rfl
    | cons r2 rs2 =>
      simp only [List.length_cons, List.length_nil] at h
      have hN : (((cnt + 1 : Nat) : Int) < N) := by omega
      have ih2 := ih (cnt + 1) N (by simp only [List.length_cons, List.length_nil]; omega)
      have step : seppedFrom cnt N (r :: r2 :: rs2)
          = Tok.record r :: Tok.comma :: Tok.newline :: seppedFrom (cnt + 1) N (r2 :: rs2) := by
        rw [seppedFrom, if_pos hN]
        rfl
      rw [step]
      show Tok.record r :: Tok.comma :: stripWs (seppedFrom (cnt + 1) N (r2 :: rs2))
          = Tok.record r :: sepCont (r2 :: rs2)
      rw [ih2]
      rfl

lemma recordsOf_seppedFrom : ∀ (rs : List JVal) (cnt : Nat) (N : Int),
    recordsOf (seppedFrom cnt N rs) = rs := by
  intro rs
  induction rs with
  | nil => intro cnt N; rfl
  | cons r rest ih =>
    intro cnt N
    by_cases hN : (((cnt + 1 : Nat) : Int) < N)
    all_goals push_cast at hN
    all_goals simp [seppedFrom, hN, recordsOf, ih (cnt + 1) N]

lemma seppedFrom_append (N : Int) : ∀ (xs ys : List JVal) (cnt : Nat),
    seppedFrom cnt N (xs ++ ys) = seppedFrom cnt N xs ++ seppedFrom (cnt + xs.length) N ys := by
  intro xs
  induction xs with
  | nil => intro ys cnt; simp [seppedFrom]
  | cons x rest ih =>
    intro ys cnt
    have hc : (x :: rest) ++ ys = x :: (rest ++ ys) := rfl
    rw [hc, seppedFrom, seppedFrom, ih ys (cnt + 1)]
    have hn : cnt + 1 + rest.length = cnt + (x :: rest).length := by
      simp [List.length_cons]
      omega
    rw [hn]
    simp [List.append_assoc]

lemma sites_page_spec (total : Int) :
    ∀ (rs : List JVal) (toks : List Tok) (cnt : Nat) (st : RunSt),
    (∀ r ∈ rs, (∃ i, getField r "id" = .ok i) ∧ (∃ n, getField r "name" = .ok n)) →
    ∃ st', sites_page total rs toks cnt st =
        .ok (toks ++ seppedFrom cnt total rs, cnt + rs.length, st') ∧
      st'.sites_cache = rs.foldl insSite st.sites_cache ∧
      st'.calls = st.calls ∧
      st'.admin_writes = st.admin_writes ∧
      st'.admin_file = st.admin_file := by
  intro rs
  induction rs with
  | nil =>
    intro toks cnt st _
    exact ⟨st, by simp [sites_page, seppedFrom], rfl, rfl, rfl, rfl⟩
  | cons r rest ih =>
    intro toks cnt st hgood
    obtain ⟨⟨i, hi⟩, ⟨n, hn⟩⟩ := hgood r (by simp)
    have hrest : ∀ r' ∈ rest, (∃ i, getField r' "id" = Except.ok i) ∧
        (∃ n, getField r' "name" = Except.ok n) := by
      intro r' hr'
      exact hgood r' (List.mem_cons_of_mem _ hr')
    obtain ⟨st', hrun, hcache, hcalls, hw, hf⟩ :=
      ih (toks ++ [Tok.record r] ++
          (if ((cnt + 1 : Nat) : Int) < total then [Tok.comma, Tok.newline] else [Tok.newline]))
        (cnt + 1)
        { st with
          sites_cache := dict_insert i n st.sites_cache,
          admin := guardedUpdate .countries "country" r
            (guardedUpdate .timezones "timezone" r
              (guardedUpdate .languages "language" r st.admin)) }
        hrest
    refine ⟨st', ?_, ?_, hcalls, hw, hf⟩
    · simp only [sites_page, bind, Except.bind]
      rw [hi, hn]
      simp only [hn]
      rw [hrun]
      simp [seppedFrom, List.append_assoc]
      omega
    · rw [hcache]
      simp [insSite, hi, hn, List.foldl_cons]

lemma getField_pageJ_total (t c : Int) (ds : List JVal) (nxt : Option String) :
    getField (pageJ t c ds nxt) "total" = .ok (JVal.num t) := by
  cases nxt <;> rfl

lemma getField_pageJ_count (t c : Int) (ds : List JVal) (nxt : Option String) :
    getField (pageJ t c ds nxt) "count" = .ok (JVal.num c) := by
  cases nxt <;> rfl

lemma getField_pageJ_data (t c : Int) (ds : List JVal) (nxt : Option String) :
    getField (pageJ t c ds nxt) "data" = .ok (JVal.arr ds) := by
  cases nxt <;> rfl

lemma nextPageUrl_pageJ (cfg : Config) (t c : Int) (ds : List JVal) (nxt : Option String) :
    nextPageUrl cfg (pageJ t c ds nxt) =
      .ok (nxt.map (fun n => cfg.xmod_url ++ n)) := by
  cases nxt <;> rfl

lemma sites_loop_of_chain (cfg : Config) (fetch : String → FetchResult) (N : Int)
    (url : String) (dss : List (List JVal))
    (hchain : PageChain cfg fetch N url dss)
    (hgood : ∀ ds ∈ dss, ∀ r ∈ ds,
      (∃ i, getField r "id" = .ok i) ∧ (∃ n, getField r "name" = .ok n)) :
    ∀ (fuel : Nat), dss.length ≤ fuel →
    ∀ (toks : List Tok) (cnt : Nat) (total0 : Int) (st : RunSt),
    ∃ st', sites_loop cfg fetch fuel url toks cnt total0 st =
        .ok (toks ++ seppedFrom cnt N dss.flatten, cnt + dss.flatten.length, N, st') ∧
      st'.sites_cache = dss.flatten.foldl insSite st.sites_cache ∧
      st'.admin_writes = st.admin_writes ∧
      st'.admin_file = st.admin_file := by
  induction hchain with
  | last url ds h =>
    intro fuel hfuel toks cnt total0 st
    match fuel, hfuel with
    | fuel + 1, _ =>
      obtain ⟨st', hrun, hcache, hcalls, hw, hf⟩ := sites_page_spec N ds toks cnt
        { st with calls := st.calls ++ [url] }
        (fun r hr => hgood ds (by simp) r hr)
      by_cases hc : ((ds.length : Int) > 0)
      · refine ⟨st', ?_, by simpa using hcache, by simpa using hw, by simpa using hf⟩
        simp only [sites_loop, bind, Except.bind]
        rw [h]
        simp only [getField_pageJ_total, getField_pageJ_count, getField_pageJ_data,
          nextPageUrl_pageJ, asIntE, asArrE]
        rw [if_pos hc]
        rw [hrun]
        simp [pure, Except.pure, List.flatten]
      · have hds : ds = [] := by
          cases ds with
          | nil => rfl
          | cons a b => exact absurd (by simp) hc
        subst hds
        refine ⟨{ st with calls := st.calls ++ [url] }, ?_, by simp, rfl, rfl⟩
        simp only [sites_loop, bind, Except.bind]
        rw [h]
        simp only [getField_pageJ_total, getField_pageJ_count, getField_pageJ_data,
          nextPageUrl_pageJ, asIntE, asArrE]
        rw [if_neg hc]
        simp [pure, Except.pure, seppedFrom, List.flatten]
  | step url ds nxt rest h hrest ih =>
    intro fuel hfuel toks cnt total0 st
    match fuel, hfuel with
    | fuel + 1, hfuel =>
      have hfuel2 : rest.length ≤ fuel := by
        simp [List.length_cons] at hfuel
        omega
      have hgood2 : ∀ ds2 ∈ rest, ∀ r ∈ ds2,
          (∃ i, getField r "id" = Except.ok i) ∧ (∃ n, getField r "name" = Except.ok n) :=
        fun ds2 hds2 r hr => hgood ds2 (by simp [hds2]) r hr
      by_cases hc : ((ds.length : Int) > 0)
      · obtain ⟨st', hrun, hcache, hcalls, hw, hf⟩ := sites_page_spec N ds toks cnt
          { st with calls := st.calls ++ [url] }
          (fun r hr => hgood ds (by simp) r hr)
        obtain ⟨st2, hrun2, hcache2, hw2, hf2⟩ :=
          ih hgood2 fuel hfuel2 (toks ++ seppedFrom cnt N ds) (cnt + ds.length) N st'
        refine ⟨st2, ?_, ?_, ?_, ?_⟩
        · simp only [sites_loop, bind, Except.bind]
          rw [h]
          simp only [getField_pageJ_total, getField_pageJ_count, getField_pageJ_data,
            nextPageUrl_pageJ, asIntE, asArrE]
          rw [if_pos hc]
          rw [hrun]
          simp only [pure, Except.pure, Option.map]
          rw [hrun2]
          have hsep := seppedFrom_append N ds rest.flatten cnt
          simp [List.flatten, List.append_assoc, hsep, List.length_append]
          omega
        · rw [hcache2, hcache]
          simp [List.flatten, List.foldl_append]
        · rw [hw2, hw]
        · rw [hf2, hf]
      · have hds : ds = [] := by
          cases ds with
          | nil => rfl
          | cons a b => exact absurd (by simp) hc
        subst hds
        obtain ⟨st2, hrun2, hcache2, hw2, hf2⟩ :=
          ih hgood2 fuel hfuel2 toks cnt N { st with calls := st.calls ++ [url] }
        refine ⟨st2, ?_, ?_, ?_, ?_⟩
        · simp only [sites_loop, bind, Except.bind]
          rw [h]
          simp only [getField_pageJ_total, getField_pageJ_count, getField_pageJ_data,
            nextPageUrl_pageJ, asIntE, asArrE]
          rw [if_neg hc]
          simp only [pure, Except.pure, Option.map]
          rw [hrun2]
          simp [List.flatten, seppedFrom]
        · rw [hcache2]
          simp [List.flatten]
        · rw [hw2]
        · rw [hf2]

lemma json_array_ok_of_complete (rs : List JVal) :
    json_array_ok ([Tok.lbrack, Tok.newline] ++ seppedFrom 0 (rs.length : Int) rs ++ [Tok.rbrack])
      = true := by
  have hstrip := stripWs_seppedFrom rs 0 (rs.length : Int) (by simp)
  have hfull : stripWs ([Tok.lbrack, Tok.newline] ++ seppedFrom 0 (rs.length : Int) rs ++ [Tok.rbrack])
      = Tok.lbrack :: (stripWs (seppedFrom 0 (rs.length : Int) rs) ++ [Tok.rbrack]) := by
    rw [stripWs_append, stripWs_append]
    rfl
  rw [json_array_ok, hfull, hstrip]
  cases rs with
  | nil => rfl
  | cons r rest => simpa [validTail] using validTail_sepCont rest

/-- Claim C1 (corrected): for the Sites capture routine, when the collection traversal completes successfully — every page fetch returns HTTP 200 with a well-formed page whose declared total equals the overall number of delivered records, and the last page has no next link — the closed output file is a syntactically valid JSON array containing exactly the retrieved records in page-arrival order. (Early-terminated runs leave a trailing comma; see the counterexample.) -/
theorem C1_amended_complete_sites_run_valid_json (cfg : Config) (fetch : String → FetchResult)
    (dss : List (List JVal)) (fuel : Nat) (st : RunSt)
    (hchain : PageChain cfg fetch (dss.flatten.length : Int) (sites_coll_url cfg) dss)
    (hgood : ∀ ds ∈ dss, ∀ r ∈ ds,
      (∃ i, getField r "id" = .ok i) ∧ (∃ n, getField r "name" = .ok n))
    (hfuel : dss.length ≤ fuel) :
    ∃ st', process_sites cfg fetch fuel st =
        .ok ([Tok.lbrack, Tok.newline] ++ seppedFrom 0 (dss.flatten.length : Int) dss.flatten
          ++ [Tok.rbrack], st') ∧
      json_array_ok ([Tok.lbrack, Tok.newline] ++ seppedFrom 0 (dss.flatten.length : Int) dss.flatten
          ++ [Tok.rbrack]) = true ∧
      recordsOf ([Tok.lbrack, Tok.newline] ++ seppedFrom 0 (dss.flatten.length : Int) dss.flatten
          ++ [Tok.rbrack]) = dss.flatten := by
  obtain ⟨st', hrun, _, _, _⟩ := sites_loop_of_chain cfg fetch (dss.flatten.length : Int)
    (sites_coll_url cfg) dss hchain hgood fuel hfuel [Tok.lbrack, Tok.newline] 0 0 st
  refine ⟨st', ?_, json_array_ok_of_complete dss.flatten, ?_⟩
  · simp only [process_sites, bind, Except.bind]
    rw [hrun]
  · rw [recordsOf_append, recordsOf_append]
    simp [recordsOf, recordsOf_seppedFrom]

lemma dict_lookup_insert_self (k v : JVal) (c : List (JVal × JVal)) :
    dict_lookup (dict_insert k v c) k = some v := by
  simp [dict_lookup, dict_insert, List.find?]

lemma dict_lookup_insert_ne (k k' v : JVal) (c : List (JVal × JVal)) (h : k ≠ k') :
    dict_lookup (dict_insert k' v c) k = dict_lookup c k := by
  simp [dict_lookup, dict_insert, List.find?, Ne.symm h]

lemma foldl_insSite_no_id (sid : String) : ∀ (rs : List JVal) (c : List (JVal × JVal)),
    (∀ r ∈ rs, ¬ (getField r "id" = .ok (JVal.str sid))) →
    dict_lookup (rs.foldl insSite c) (JVal.str sid) = dict_lookup c (JVal.str sid) := by
  intro rs
  induction rs with
  | nil => intro c _; rfl
  | cons r rest ih =>
    intro c hno
    rw [List.foldl_cons]
    rw [ih _ (fun r' hr' => hno r' (List.mem_cons_of_mem _ hr'))]
    rcases hgi : getField r "id" with e | i
    · simp [insSite, hgi]
    · rcases hgn : getField r "name" with e | n
      · simp [insSite, hgi, hgn]
      · have hne : JVal.str sid ≠ i := by
          intro hh
          exact hno r (by simp) (by rw [hgi, hh])
        simp [insSite, hgi, hgn, dict_lookup_insert_ne _ _ _ _ hne]

lemma foldl_insSite_lookup (sid : String) (nv : JVal) : ∀ (rs : List JVal) (c : List (JVal × JVal)),
    (∃ r ∈ rs, getField r "id" = .ok (JVal.str sid)) →
    (∀ r ∈ rs, getField r "id" = .ok (JVal.str sid) → getField r "name" = .ok nv) →
    dict_lookup (rs.foldl insSite c) (JVal.str sid) = some nv := by
  intro rs
  induction rs with
  | nil => rintro c ⟨r, hr, _⟩ _; exact absurd hr (List.not_mem_nil r)
  | cons r rest ih =>
    intro c hex hall
    by_cases hrest : ∃ r' ∈ rest, getField r' "id" = .ok (JVal.str sid)
    · rw [List.foldl_cons]
      exact ih _ hrest (fun r' hr' => hall r' (List.mem_cons_of_mem _ hr'))
    · have hhead : getField r "id" = .ok (JVal.str sid) := by
        obtain ⟨r', hr', hid'⟩ := hex
        rcases List.mem_cons.mp hr' with h1 | h1
        · rwa [← h1]
        · exact absurd ⟨r', h1, hid'⟩ hrest
      have hname : getField r "name" = .ok nv := hall r (by simp) hhead
      rw [List.foldl_cons]
      rw [foldl_insSite_no_id sid rest _ (fun r' hr' hid' => hrest ⟨r', hr', hid'⟩)]
      simp [insSite, hhead, hname, dict_lookup_insert_self]

lemma get_group_site_hit (cfg : Config) (fetch : String → FetchResult)
    (gid : String) (gfs : List (String × JVal)) (sObj sidJ v tnv idv : JVal) (st : RunSt)
    (hg : fetch (group_url cfg gid) = .resp 200 (.obj gfs))
    (hsite : lookupField gfs "site" = some sObj)
    (hsid : getField sObj "id" = .ok sidJ)
    (hhit : dict_lookup st.sites_cache sidJ = some v)
    (htn : lookupField gfs "targetName" = some tnv)
    (hgid : lookupField gfs "id" = some idv) :
    get_group cfg fetch (JVal.str gid) st =
      .ok (some (setField (.obj gfs) "site" v),
        { st with calls := st.calls ++ [group_url cfg gid] }) := by
  have hfld : getField (JVal.obj gfs) "site" = .ok sObj := by simp [getField, hsite]
  have htn2 : getField (setField (JVal.obj gfs) "site" v) "targetName" = .ok tnv := by
    rw [getField_setField_ne gfs "targetName" "site" v (by decide)]
    simp [getField, htn]
  have hgid2 : getField (setField (JVal.obj gfs) "site" v) "id" = .ok idv := by
    rw [getField_setField_ne gfs "id" "site" v (by decide)]
    simp [getField, hgid]
  have hlk := lookup_site_name_hit cfg fetch sidJ v
    { st with calls := st.calls ++ [group_url cfg gid] } hhit
  simp [get_group, asStrE, bind, Except.bind]
  rw [hg]
  simp [hasKey, hsite, hfld]
  rw [hsid]
  simp [hlk, htn2, hgid2, pure, Except.pure]

/-- Claim C7 (confirmed): if site S1 is captured by the Sites routine earlier in the run (pre-warming the cache), then fetching a group whose record references `site.id = S1` writes the group with `site` set to the name of S1, and the whole group processing issues exactly one network call — the fetch of the group itself — with zero additional calls for the site lookup. -/
theorem C7_prewarmed_site_cache_no_extra_calls (cfg : Config) (fetch : String → FetchResult)
    (dss : List (List JVal)) (fuel : Nat) (st0 : RunSt) (N : Int)
    (sid snm gid : String) (gfs : List (String × JVal)) (sObj tnv idv : JVal)
    (hchain : PageChain cfg fetch N (sites_coll_url cfg) dss)
    (hgood : ∀ ds ∈ dss, ∀ r ∈ ds,
      (∃ i, getField r "id" = .ok i) ∧ (∃ n, getField r "name" = .ok n))
    (hfuel : dss.length ≤ fuel)
    (hoccur : ∃ r ∈ dss.flatten, getField r "id" = .ok (JVal.str sid))
    (huniq : ∀ r ∈ dss.flatten, getField r "id" = .ok (JVal.str sid) →
      getField r "name" = .ok (JVal.str snm))
    (hg : fetch (group_url cfg gid) = .resp 200 (.obj gfs))
    (hsite : lookupField gfs "site" = some sObj)
    (hsid : getField sObj "id" = .ok (JVal.str sid))
    (htn : lookupField gfs "targetName" = some tnv)
    (hgid : lookupField gfs "id" = some idv) :
    ∃ toksS st1, process_sites cfg fetch fuel st0 = .ok (toksS, st1) ∧
      get_group cfg fetch (JVal.str gid) st1 =
        .ok (some (setField (.obj gfs) "site" (JVal.str snm)),
          { st1 with calls := st1.calls ++ [group_url cfg gid] }) ∧
      getField (setField (.obj gfs) "site" (JVal.str snm)) "site" = .ok (JVal.str snm) := by
  obtain ⟨st1, hrun, hcache, _, _⟩ := sites_loop_of_chain cfg fetch N
    (sites_coll_url cfg) dss hchain hgood fuel hfuel [Tok.lbrack, Tok.newline] 0 0 st0
  have hhit : dict_lookup st1.sites_cache (JVal.str sid) = some (JVal.str snm) := by
    rw [hcache]
    exact foldl_insSite_lookup sid (JVal.str snm) dss.flatten st0.sites_cache hoccur huniq
  refine ⟨[Tok.lbrack, Tok.newline] ++ seppedFrom 0 N dss.flatten ++ [Tok.rbrack], st1, ?_, ?_, ?_⟩
  · simp only [process_sites, bind, Except.bind]
    rw [hrun]
  · exact get_group_site_hit cfg fetch gid gfs sObj (JVal.str sid) (JVal.str snm) tnv idv st1
      hg hsite hsid hhit htn hgid
  · exact getField_setField_self gfs "site" (JVal.str snm)

lemma addSet_mem (x v : JVal) (s : List JVal) : x ∈ addSet v s ↔ (x ∈ s ∨ x = v) := by
  by_cases h : v ∈ s
  · simp only [addSet, if_pos h]
    constructor
    · exact Or.inl
    · rintro (hx | rfl)
      · exact hx
      · exact h
  · simp [addSet, h, List.mem_append]

lemma addSet_idem (v : JVal) (s : List JVal) : addSet v (addSet v s) = addSet v s := by
  by_cases h : v ∈ s
  · simp [addSet, h]
  · simp [addSet, h, List.mem_append]

lemma addSet_nodup (v : JVal) (s : List JVal) (h : s.Nodup) : (addSet v s).Nodup := by
  by_cases hm : v ∈ s
  · simpa [addSet, hm] using h
  · simp [addSet, hm, List.nodup_append, h]

lemma update_admin_idem (c : Cat) (v : JVal) (a : AdminSets) :
    update_admin c v (update_admin c v a) = update_admin c v a := by
  cases c <;> simp [update_admin, addSet_idem]

lemma update_admin_nodup (c : Cat) (v : JVal) (a : AdminSets) (h : NodupAll a) :
    NodupAll (update_admin c v a) := by
  obtain ⟨h1, h2, h3, h4, h5, h6, h7⟩ := h
  cases c with
  | admins => exact ⟨addSet_nodup v _ h1, h2, h3, h4, h5, h6, h7⟩
  | roles => exact ⟨h1, addSet_nodup v _ h2, h3, h4, h5, h6, h7⟩
  | timezones => exact ⟨h1, h2, addSet_nodup v _ h3, h4, h5, h6, h7⟩
  | countries => exact ⟨h1, h2, h3, addSet_nodup v _ h4, h5, h6, h7⟩
  | languages => exact ⟨h1, h2, h3, h4, addSet_nodup v _ h5, h6, h7⟩
  | devices => exact ⟨h1, h2, h3, h4, h5, addSet_nodup v _ h6, h7⟩
  | usps => exact ⟨h1, h2, h3, h4, h5, h6, addSet_nodup v _ h7⟩

lemma foldl_update_nodup : ∀ (ops : List (Cat × JVal)) (a : AdminSets), NodupAll a →
    NodupAll (ops.foldl (fun a p => update_admin p.1 p.2 a) a) := by
  intro ops
  induction ops with
  | nil => intro a h; exact h
  | cons p rest ih => intro a h; exact ih _ (update_admin_nodup p.1 p.2 a h)

lemma recordAll_nodup (ops : List (Cat × JVal)) : NodupAll (recordAll ops) :=
  foldl_update_nodup ops emptyAdmin ⟨List.nodup_nil, List.nodup_nil, List.nodup_nil,
    List.nodup_nil, List.nodup_nil, List.nodup_nil, List.nodup_nil⟩

/-- Claim C9 (confirmed): recording the same `(category, value)` pair into the metadata aggregator twice has the same effect as recording it once, and after any sequence of record operations from the initial empty sets, the flushed admin file holds exactly the collected sets, each of the seven arrays duplicate-free. -/
theorem C9_aggregator_idempotent_and_duplicate_free :
    (∀ (c : Cat) (v : JVal) (a : AdminSets),
      update_admin c v (update_admin c v a) = update_admin c v a) ∧
    (∀ (ops : List (Cat × JVal)) (st : RunSt),
      (save_admin_data { st with admin := recordAll ops }).admin_file = some (recordAll ops) ∧
      NodupAll (recordAll ops)) := by
  refine ⟨update_admin_idem, fun ops st => ⟨rfl, recordAll_nodup ops⟩⟩

lemma roles_fold_spec (cfg : Config) (u : JVal) (tnv : JVal)
    (htn : getField u "targetName" = .ok tnv) :
    ∀ (rs : List JVal) (st : RunSt),
    (∀ r ∈ rs, ∃ n, getField r "name" = .ok n) →
    ∃ st', roles_fold cfg u rs st = .ok st' ∧
      st'.sites_cache = st.sites_cache ∧ st'.calls = st.calls ∧
      st'.admin_writes = st.admin_writes ∧ st'.admin_file = st.admin_file ∧
      (∀ x, x ∈ st'.admin.admins ↔
        (x ∈ st.admin.admins ∨
          (x = tnv ∧ ∃ r ∈ rs, getField r "name" = .ok cfg.company_admin_role))) ∧
      (∀ x, x ∈ st'.admin.roles ↔
        (x ∈ st.admin.roles ∨ ∃ r ∈ rs, getField r "name" = .ok x)) ∧
      (st.admin.roles.Nodup → st'.admin.roles.Nodup) ∧
      (st.admin.admins.Nodup → st'.admin.admins.Nodup) := by
  intro rs
  induction rs with
  | nil =>
    intro st _
    exact ⟨st, rfl, rfl, rfl, rfl, rfl,
      fun x => by simp, fun x => by simp, fun h => h, fun h => h⟩
  | cons role rest ih =>
    intro st hnames
    obtain ⟨n, hn⟩ := hnames role (by simp)
    have hrest : ∀ r ∈ rest, ∃ m, getField r "name" = .ok m :=
      fun r hr => hnames r (List.mem_cons_of_mem _ hr)
    by_cases hmatch : n = cfg.company_admin_role
    · obtain ⟨st', hrun, hc, hcl, hw, hf, hadm, hrol, hnr, hna⟩ :=
        ih { st with admin := update_admin .admins tnv (update_admin .roles n st.admin) } hrest
      refine ⟨st', ?_, hc, hcl, hw, hf, ?_, ?_, ?_, ?_⟩
      · simp only [roles_fold, bind, Except.bind]
        rw [hn]
        simp only [Except.bind]
        rw [if_pos hmatch]
        simp only [htn, Except.bind, pure, Except.pure]
        exact hrun
      · intro x
        rw [hadm x]
        have hmem : x ∈ (update_admin Cat.admins tnv (update_admin Cat.roles n st.admin)).admins
            ↔ (x ∈ st.admin.admins ∨ x = tnv) := by
          simp [update_admin, addSet_mem]
        rw [hmem]
        constructor
        · rintro ((hx | rfl) | ⟨rfl, _⟩)
          · exact Or.inl hx
          · exact Or.inr ⟨rfl, role, by simp, by rw [hn, hmatch]⟩
          · exact Or.inr ⟨rfl, role, by simp, by rw [hn, hmatch]⟩
        · rintro (hx | ⟨rfl, _⟩)
          · exact Or.inl (Or.inl hx)
          · exact Or.inl (Or.inr rfl)
      · intro x
        rw [hrol x]
        have hmem : x ∈ (update_admin Cat.admins tnv (update_admin Cat.roles n st.admin)).roles
            ↔ (x ∈ st.admin.roles ∨ x = n) := by
          simp [update_admin, addSet_mem]
        rw [hmem]
        constructor
        · rintro ((hx | rfl) | ⟨r, hr, hnr'⟩)
          · exact Or.inl hx
          · exact Or.inr ⟨role, by simp, hn⟩
          · exact Or.inr ⟨r, List.mem_cons_of_mem _ hr, hnr'⟩
        · rintro (hx | ⟨r, hr, hnr'⟩)
          · exact Or.inl (Or.inl hx)
          · rcases List.mem_cons.mp hr with h1 | h1
            · subst h1
              rw [hn] at hnr'
              injection hnr' with hnn
              exact Or.inl (Or.inr hnn.symm)
            · exact Or.inr ⟨r, h1, hnr'⟩
      · intro hnd
        apply hnr
        simpa [update_admin] using addSet_nodup n _ hnd
      · intro hnd
        apply hna
        simpa [update_admin] using addSet_nodup tnv _ hnd
    · obtain ⟨st', hrun, hc, hcl, hw, hf, hadm, hrol, hnr, hna⟩ :=
        ih { st with admin := update_admin .roles n st.admin } hrest
      refine ⟨st', ?_, hc, hcl, hw, hf, ?_, ?_, ?_, ?_⟩
      · simp only [roles_fold, bind, Except.bind]
        rw [hn]
        simp only [Except.bind]
        rw [if_neg hmatch]
        simp only [pure, Except.pure]
        exact hrun
      · intro x
        rw [hadm x]
        have hmem : (update_admin Cat.roles n st.admin).admins = st.admin.admins := by
          simp [update_admin]
        rw [hmem]
        constructor
        · rintro (hx | ⟨rfl, r, hr, hnr'⟩)
          · exact Or.inl hx
          · exact Or.inr ⟨rfl, r, List.mem_cons_of_mem _ hr, hnr'⟩
        · rintro (hx | ⟨rfl, r, hr, hnr'⟩)
          · exact Or.inl hx
          · rcases List.mem_cons.mp hr with h1 | h1
            · subst h1
              rw [hn] at hnr'
              injection hnr' with hnn
              exact absurd hnn hmatch
            · exact Or.inr ⟨rfl, r, h1, hnr'⟩
      · intro x
        rw [hrol x]
        have hmem : x ∈ (update_admin Cat.roles n st.admin).roles
            ↔ (x ∈ st.admin.roles ∨ x = n) := by
          simp [update_admin, addSet_mem]
        rw [hmem]
        constructor
        · rintro ((hx | rfl) | ⟨r, hr, hnr'⟩)
          · exact Or.inl hx
          · exact Or.inr ⟨role, by simp, hn⟩
          · exact Or.inr ⟨r, List.mem_cons_of_mem _ hr, hnr'⟩
        · rintro (hx | ⟨r, hr, hnr'⟩)
          · exact Or.inl (Or.inl hx)
          · rcases List.mem_cons.mp hr with h1 | h1
            · subst h1
              rw [hn] at hnr'
              injection hnr' with hnn
              exact Or.inl (Or.inr hnn.symm)
            · exact Or.inr ⟨r, h1, hnr'⟩
      · intro hnd
        apply hnr
        simpa [update_admin] using addSet_nodup n _ hnd
      · intro hnd
        apply hna
        simpa [update_admin] using hnd

lemma guardedUpdate_admins (c : Cat) (k : String) (b : JVal) (a : AdminSets)
    (h : c ≠ Cat.admins) : (guardedUpdate c k b a).admins = a.admins := by
  cases b <;> simp [guardedUpdate]
  case obj fs =>
    rcases lookupField fs k with _ | v
    · rfl
    · cases c <;> simp [update_admin]
      exact absurd rfl h

lemma guardedUpdate_roles (c : Cat) (k : String) (b : JVal) (a : AdminSets)
    (h : c ≠ Cat.roles) : (guardedUpdate c k b a).roles = a.roles := by
  cases b <;> simp [guardedUpdate]
  case obj fs =>
    rcases lookupField fs k with _ | v
    · rfl
    · cases c <;> simp [update_admin]
      exact absurd rfl h

/-- Claim C8 (confirmed): for a traversed user whose detail fetch succeeds with an embedded well-formed roles collection, the `targetName` of the user is added to the `admins` set exactly when one of the embedded roles has a name equal to the configured company-admin role, and every observed role name occurs in the `roles` set exactly once. -/
theorem C8_admin_role_detection (cfg : Config) (fetch : String → FetchResult)
    (uid : String) (bfs : List (String × JVal)) (fn ln : String)
    (idv tnv : JVal) (t : Int) (rs : List JVal) (st : RunSt)
    (hu : fetch (person_url cfg uid) = .resp 200 (.obj bfs))
    (hfn : lookupField bfs "firstName" = some (JVal.str fn))
    (hln : lookupField bfs "lastName" = some (JVal.str ln))
    (hid : lookupField bfs "id" = some idv)
    (hroles : lookupField bfs "roles" =
      some (JVal.obj [("total", JVal.num t), ("data", JVal.arr rs)]))
    (htot : t = rs.length)
    (hnames : ∀ r ∈ rs, ∃ n, getField r "name" = .ok n)
    (htn : lookupField bfs "targetName" = some tnv)
    (hndr : st.admin.roles.Nodup)
    (hnotin : tnv ∉ st.admin.admins) :
    ∃ st', get_user cfg fetch (JVal.str uid) st = .ok (some (JVal.obj bfs), st') ∧
      (tnv ∈ st'.admin.admins ↔ ∃ r ∈ rs, getField r "name" = .ok cfg.company_admin_role) ∧
      (∀ x, (∃ r ∈ rs, getField r "name" = .ok x) → x ∈ st'.admin.roles) ∧
      st'.admin.roles.Nodup ∧
      (∀ x, (∃ r ∈ rs, getField r "name" = .ok x) → st'.admin.roles.count x = 1) := by
  have hgfn : getField (JVal.obj bfs) "firstName" = .ok (JVal.str fn) := by simp [getField, hfn]
  have hgln : getField (JVal.obj bfs) "lastName" = .ok (JVal.str ln) := by simp [getField, hln]
  have hgid : getField (JVal.obj bfs) "id" = .ok idv := by simp [getField, hid]
  have hgtn : getField (JVal.obj bfs) "targetName" = .ok tnv := by simp [getField, htn]
  have hgroles : getField (JVal.obj bfs) "roles" =
      .ok (JVal.obj [("total", JVal.num t), ("data", JVal.arr rs)]) := by
    simp [getField, hroles]
  have hkey : hasKey (JVal.obj bfs) "roles" = true := by simp [hasKey, hroles]
  have hTot : getField (JVal.obj [("total", JVal.num t), ("data", JVal.arr rs)]) "total"
      = .ok (JVal.num t) := rfl
  have hData : getField (JVal.obj [("total", JVal.num t), ("data", JVal.arr rs)]) "data"
      = .ok (JVal.arr rs) := rfl
  have hAa : (guardedUpdate .timezones "timezone" (JVal.obj bfs)
      (guardedUpdate .languages "language" (JVal.obj bfs) st.admin)).admins
      = st.admin.admins := by
    rw [guardedUpdate_admins _ _ _ _ (by decide), guardedUpdate_admins _ _ _ _ (by decide)]
  have hAr : (guardedUpdate .timezones "timezone" (JVal.obj bfs)
      (guardedUpdate .languages "language" (JVal.obj bfs) st.admin)).roles
      = st.admin.roles := by
    rw [guardedUpdate_roles _ _ _ _ (by decide), guardedUpdate_roles _ _ _ _ (by decide)]
  cases rs with
  | nil =>
    have ht0 : ¬ (t > 0) := by rw [htot]; simp
    refine ⟨{ st with
        calls := st.calls ++ [person_url cfg uid],
        admin := guardedUpdate .timezones "timezone" (JVal.obj bfs)
          (guardedUpdate .languages "language" (JVal.obj bfs) st.admin) }, ?_, ?_, ?_, ?_, ?_⟩
    · simp only [get_user, asStrE, bind, Except.bind]
      rw [hu]
      simp [hgfn, hgln, hgid, hkey, hgroles, hTot, hData, asIntE, ht0, pure, Except.pure, asStrE]
    · simp only [hAa]
      simp [hnotin]
    · intro x hx
      simp at hx
    · simpa only [hAr] using hndr
    · intro x hx
      simp at hx
  | cons r0 rest0 =>
    have ht0 : t > 0 := by rw [htot]; simp
    obtain ⟨st', hrun, hc, hcl, hw, hf, hadm, hrol, hnr, hna⟩ :=
      roles_fold_spec cfg (JVal.obj bfs) tnv hgtn (r0 :: rest0)
        { st with
          calls := st.calls ++ [person_url cfg uid],
          admin := guardedUpdate .timezones "timezone" (JVal.obj bfs)
            (guardedUpdate .languages "language" (JVal.obj bfs) st.admin) } hnames
    refine ⟨st', ?_, ?_, ?_, ?_, ?_⟩
    · simp only [get_user, asStrE, bind, Except.bind]
      rw [hu]
      simp only [hgfn, hgln, hgid, hkey, hgroles, hTot, hData, asIntE, asArrE, Except.bind,
        if_pos ht0, pure, Except.pure]
      rw [if_neg (by decide : ¬ ((200 : Nat) ≠ 200))]
      simp only [if_pos trivial]
      rw [hrun]
    · rw [hadm tnv]
      simp only [hAa]
      simp [hnotin]
    · intro x hx
      rw [hrol x]
      exact Or.inr hx
    · apply hnr
      simpa only [hAr] using hndr
    · intro x hx
      have hmem : x ∈ st'.admin.roles := (hrol x).mpr (Or.inr hx)
      have hnd : st'.admin.roles.Nodup := by
        apply hnr
        simpa only [hAr] using hndr
      exact List.count_eq_one_of_mem hnd hmem

lemma get_user_exn (cfg : Config) (fetch : String → FetchResult) (uid : String) (st : RunSt)
    (h : fetch (person_url cfg uid) = .exn) :
    get_user cfg fetch (JVal.str uid) st =
      .ok (none, { st with calls := st.calls ++ [person_url cfg uid] }) := by
  simp [get_user, asStrE, bind, Except.bind]
  rw [h]

lemma get_user_bad (cfg : Config) (fetch : String → FetchResult) (uid : String) (st : RunSt)
    (s : Nat) (b : JVal) (h : fetch (person_url cfg uid) = .resp s b) (hs : s ≠ 200) :
    get_user cfg fetch (JVal.str uid) st =
      .ok (none, { st with calls := st.calls ++ [person_url cfg uid] }) := by
  simp [get_user, asStrE, bind, Except.bind]
  rw [h]
  simp [hs]

lemma get_user_wf (cfg : Config) (fetch : String → FetchResult) (uid : String) (st : RunSt)
    (b : JVal) (h : fetch (person_url cfg uid) = .resp 200 b) (hw : well_user b) :
    ∃ st', get_user cfg fetch (JVal.str uid) st = .ok (some b, st') ∧
      st'.sites_cache = st.sites_cache ∧
      st'.calls = st.calls ++ [person_url cfg uid] ∧
      st'.admin_writes = st.admin_writes ∧
      st'.admin_file = st.admin_file := by
  obtain ⟨fs, rfl, ⟨fn, hfn⟩, ⟨ln, hln⟩, ⟨idv, hid⟩, ⟨tnv, htn⟩, hroles⟩ := hw
  have hgfn : getField (JVal.obj fs) "firstName" = .ok (JVal.str fn) := by simp [getField, hfn]
  have hgln : getField (JVal.obj fs) "lastName" = .ok (JVal.str ln) := by simp [getField, hln]
  have hgid : getField (JVal.obj fs) "id" = .ok idv := by simp [getField, hid]
  have hgtn : getField (JVal.obj fs) "targetName" = .ok tnv := by simp [getField, htn]
  rcases hroles with hnone | ⟨t, rs, hsome, hnames⟩
  · have hkey : hasKey (JVal.obj fs) "roles" = false := by simp [hasKey, hnone]
    refine ⟨{ st with
        calls := st.calls ++ [person_url cfg uid],
        admin := guardedUpdate .timezones "timezone" (JVal.obj fs)
          (guardedUpdate .languages "language" (JVal.obj fs) st.admin) }, ?_, rfl, rfl, rfl, rfl⟩
    simp only [get_user, asStrE, bind, Except.bind]
    rw [h]
    simp [hgfn, hgln, hgid, hkey, pure, Except.pure, asStrE]
  · have hkey : hasKey (JVal.obj fs) "roles" = true := by simp [hasKey, hsome]
    have hgroles : getField (JVal.obj fs) "roles" =
        .ok (JVal.obj [("total", JVal.num t), ("data", JVal.arr rs)]) := by
      simp [getField, hsome]
    have hTot : getField (JVal.obj [("total", JVal.num t), ("data", JVal.arr rs)]) "total"
        = .ok (JVal.num t) := rfl
    have hData : getField (JVal.obj [("total", JVal.num t), ("data", JVal.arr rs)]) "data"
        = .ok (JVal.arr rs) := rfl
    by_cases ht : t > 0
    · obtain ⟨st', hrun, hc, hcl, hwr, hfl, _, _, _, _⟩ :=
        roles_fold_spec cfg (JVal.obj fs) tnv hgtn rs
          { st with
            calls := st.calls ++ [person_url cfg uid],
            admin := guardedUpdate .timezones "timezone" (JVal.obj fs)
              (guardedUpdate .languages "language" (JVal.obj fs) st.admin) } hnames
      refine ⟨st', ?_, by simpa using hc, by simpa using hcl, by simpa using hwr,
        by simpa using hfl⟩
      simp only [get_user, asStrE, bind, Except.bind]
      rw [h]
      simp only [hgfn, hgln, hgid, hkey, hgroles, hTot, hData, asIntE, asArrE, Except.bind,
        if_pos ht, pure, Except.pure]
      rw [if_neg (by decide : ¬ ((200 : Nat) ≠ 200))]
      simp only [if_pos trivial]
      rw [hrun]
    · refine ⟨{ st with
        calls := st.calls ++ [person_url cfg uid],
        admin := guardedUpdate .timezones "timezone" (JVal.obj fs)
          (guardedUpdate .languages "language" (JVal.obj fs) st.admin) }, ?_, rfl, rfl, rfl, rfl⟩
      simp only [get_user, asStrE, bind, Except.bind]
      rw [h]
      simp [hgfn, hgln, hgid, hkey, hgroles, hTot, hData, asIntE, ht, pure, Except.pure, asStrE]

lemma users_page_spec (cfg : Config) (fetch : String → FetchResult) (total : Int) (fuel : Nat) :
    ∀ (rs : List JVal) (toks : List Tok) (cnt : Nat) (st : RunSt),
    (∀ r ∈ rs, users_rec_hyp cfg fetch r) →
    ∃ toks' cnt' st',
      users_page cfg fetch fuel false total rs toks cnt st = .ok (toks', cnt', st') ∧
      recordsOf toks' = recordsOf toks ++
        ((rs.filterMap (fetched_user cfg fetch)).map (fun b => JVal.obj [("user", b)])) ∧
      cnt' = cnt + (rs.filterMap (fetched_user cfg fetch)).length := by
  intro rs
  induction rs with
  | nil =>
    intro toks cnt st _
    exact ⟨toks, cnt, st, by simp [users_page], by simp, by simp⟩
  | cons r rest ih =>
    intro toks cnt st hh
    obtain ⟨⟨uid, hid⟩, ⟨tn, htn⟩, hout⟩ := hh r (by simp)
    have hrest : ∀ r' ∈ rest, users_rec_hyp cfg fetch r' :=
      fun r' hr' => hh r' (List.mem_cons_of_mem _ hr')
    rcases hout uid hid with hexn | ⟨s, b, hresp, hs⟩ | ⟨b, hresp, hwf⟩
    · have hfur : fetched_user cfg fetch r = none := by
        simp [fetched_user, hid]
        rw [hexn]
      obtain ⟨toks', cnt', st', hrun, hrec, hcnt⟩ := ih toks cnt
        { st with calls := st.calls ++ [person_url cfg uid] } hrest
      refine ⟨toks', cnt', st', ?_, ?_, ?_⟩
      · simp only [users_page, bind, Except.bind]
        rw [hid]
        simp only [Except.bind, htn]
        rw [get_user_exn cfg fetch uid st hexn]
        simpa [pure, Except.pure] using hrun
      · simpa [hfur] using hrec
      · simpa [hfur] using hcnt
    · have hfur : fetched_user cfg fetch r = none := by
        simp only [fetched_user, hid]
        rw [hresp]
        split
        · rename_i heq
          injection heq with h1 h2
          exact absurd h1 hs
        · rfl
      obtain ⟨toks', cnt', st', hrun, hrec, hcnt⟩ := ih toks cnt
        { st with calls := st.calls ++ [person_url cfg uid] } hrest
      refine ⟨toks', cnt', st', ?_, ?_, ?_⟩
      · simp only [users_page, bind, Except.bind]
        rw [hid]
        simp only [Except.bind, htn]
        rw [get_user_bad cfg fetch uid st s b hresp hs]
        simpa [pure, Except.pure] using hrun
      · simpa [hfur] using hrec
      · simpa [hfur] using hcnt
    · have hfur : fetched_user cfg fetch r = some b := by
        simp only [fetched_user, hid]
        rw [hresp]
      obtain ⟨st1, hget, hc1, hcl1, hw1, hf1⟩ := get_user_wf cfg fetch uid st b hresp hwf
      obtain ⟨toks', cnt', st', hrun, hrec, hcnt⟩ := ih
        (toks ++ [Tok.record (JVal.obj [("user", b)])] ++
          (if ((cnt + 1 : Nat) : Int) < total then [Tok.comma, Tok.newline] else [Tok.newline]))
        (cnt + 1) st1 hrest
      refine ⟨toks', cnt', st', ?_, ?_, ?_⟩
      · simp only [users_page, bind, Except.bind]
        rw [hid]
        simp only [Except.bind, htn]
        rw [hget]
        simp only [pure, Except.pure, List.append_assoc]
        simpa [pure, Except.pure, List.append_assoc] using hrun
      · rw [hrec]
        simp [recordsOf_append, recordsOf, hfur]
        split <;> simp [recordsOf]
      · rw [hcnt]
        simp [hfur]
        omega

lemma get_group_exn (cfg : Config) (fetch : String → FetchResult) (gid : String) (st : RunSt)
    (h : fetch (group_url cfg gid) = .exn) :
    get_group cfg fetch (JVal.str gid) st =
      .ok (none, { st with calls := st.calls ++ [group_url cfg gid] }) := by
  simp [get_group, asStrE, bind, Except.bind]
  rw [h]

lemma get_group_bad (cfg : Config) (fetch : String → FetchResult) (gid : String) (st : RunSt)
    (s : Nat) (b : JVal) (h : fetch (group_url cfg gid) = .resp s b) (hs : s ≠ 200) :
    get_group cfg fetch (JVal.str gid) st =
      .ok (none, { st with calls := st.calls ++ [group_url cfg gid] }) := by
  simp [get_group, asStrE, bind, Except.bind]
  rw [h]
  simp [hs]

lemma get_group_nosite (cfg : Config) (fetch : String → FetchResult) (gid : String) (st : RunSt)
    (fs : List (String × JVal)) (tnv : JVal)
    (h : fetch (group_url cfg gid) = .resp 200 (JVal.obj fs))
    (hnosite : lookupField fs "site" = none)
    (htn : lookupField fs "targetName" = some tnv)
    (hgid : ∃ idv, lookupField fs "id" = some idv) :
    get_group cfg fetch (JVal.str gid) st =
      .ok (some (JVal.obj fs), { st with calls := st.calls ++ [group_url cfg gid] }) := by
  obtain ⟨idv, hgid⟩ := hgid
  have hkey : hasKey (JVal.obj fs) "site" = false := by simp [hasKey, hnosite]
  have hgtn : getField (JVal.obj fs) "targetName" = .ok tnv := by simp [getField, htn]
  have hgidv : getField (JVal.obj fs) "id" = .ok idv := by simp [getField, hgid]
  simp [get_group, asStrE, bind, Except.bind]
  rw [h]
  simp [hkey, hgtn, hgidv, pure, Except.pure]

lemma get_group_shifts_break (cfg : Config) (fetch : String → FetchResult) (gid2 : String)
    (st : RunSt) (s2 : Nat) (b2 : JVal) (fuel : Nat)
    (h : fetch (shifts_url cfg gid2) = .resp s2 b2) (h1 : s2 ≠ 200) (h2 : s2 ≠ 404)
    (hf : 0 < fuel) :
    get_group_shifts cfg fetch fuel (JVal.str gid2) st =
      .ok ([], { st with calls := st.calls ++ [shifts_url cfg gid2] }) := by
  match fuel, hf with
  | fuel + 1, _ =>
    simp [get_group_shifts, shifts_loop, asStrE, bind, Except.bind]
    rw [h]
    simp [h1, h2]

lemma groups_page_spec (cfg : Config) (fetch : String → FetchResult) (total : Int) (fuel : Nat)
    (hf : 0 < fuel) :
    ∀ (rs : List JVal) (toks : List Tok) (cnt : Nat) (st : RunSt),
    (∀ r ∈ rs, groups_rec_hyp cfg fetch r) →
    ∃ toks' cnt' st',
      groups_page cfg fetch fuel total rs toks cnt st = .ok (toks', cnt', st') ∧
      recordsOf toks' = recordsOf toks ++
        ((rs.filterMap (fetched_group cfg fetch)).map
          (fun b => JVal.obj [("group", b), ("shifts", JVal.arr [])])) ∧
      cnt' = cnt + (rs.filterMap (fetched_group cfg fetch)).length := by
  intro rs
  induction rs with
  | nil =>
    intro toks cnt st _
    exact ⟨toks, cnt, st, by simp [groups_page], by simp, by simp⟩
  | cons r rest ih =>
    intro toks cnt st hh
    obtain ⟨⟨gid, hid⟩, ⟨tn, htn⟩, hout⟩ := hh r (by simp)
    have hrest : ∀ r' ∈ rest, groups_rec_hyp cfg fetch r' :=
      fun r' hr' => hh r' (List.mem_cons_of_mem _ hr')
    rcases hout gid hid with hexn | ⟨s, b, hresp, hs⟩ | ⟨b, hresp, hwf⟩
    · have hfur : fetched_group cfg fetch r = none := by
        simp [fetched_group, hid]
        rw [hexn]
      obtain ⟨toks', cnt', st', hrun, hrec, hcnt⟩ := ih toks cnt
        { st with calls := st.calls ++ [group_url cfg gid] } hrest
      refine ⟨toks', cnt', st', ?_, ?_, ?_⟩
      · simp only [groups_page, bind, Except.bind]
        rw [hid]
        simp only [Except.bind, htn]
        rw [get_group_exn cfg fetch gid st hexn]
        simpa [pure, Except.pure] using hrun
      · simpa [hfur] using hrec
      · simpa [hfur] using hcnt
    · have hfur : fetched_group cfg fetch r = none := by
        simp only [fetched_group, hid]
        rw [hresp]
        split
        · rename_i heq
          injection heq with h1 h2
          exact absurd h1 hs
        · rfl
      obtain ⟨toks', cnt', st', hrun, hrec, hcnt⟩ := ih toks cnt
        { st with calls := st.calls ++ [group_url cfg gid] } hrest
      refine ⟨toks', cnt', st', ?_, ?_, ?_⟩
      · simp only [groups_page, bind, Except.bind]
        rw [hid]
        simp only [Except.bind, htn]
        rw [get_group_bad cfg fetch gid st s b hresp hs]
        simpa [pure, Except.pure] using hrun
      · simpa [hfur] using hrec
      · simpa [hfur] using hcnt
    · have hfur : fetched_group cfg fetch r = some b := by
        simp only [fetched_group, hid]
        rw [hresp]
      obtain ⟨fs, rfl, hnosite, ⟨tn2, htn2⟩, ⟨gid2, hgid2, s2, b2, hshift, hs1, hs2⟩⟩ := hwf
      have hgget := get_group_nosite cfg fetch gid st fs tn2 hresp hnosite htn2 ⟨_, hgid2⟩
      have hggid : getField (JVal.obj fs) "id" = .ok (JVal.str gid2) := by
        simp [getField, hgid2]
      have hgtn2 : getField (JVal.obj fs) "targetName" = .ok tn2 := by
        simp [getField, htn2]
      have hshifts := get_group_shifts_break cfg fetch gid2
        { st with calls := st.calls ++ [group_url cfg gid] } s2 b2 fuel hshift hs1 hs2 hf
      obtain ⟨toks', cnt', st', hrun, hrec, hcnt⟩ := ih
        (toks ++ [Tok.record (JVal.obj [("group", JVal.obj fs), ("shifts", JVal.arr [])])] ++
          (if ((cnt + 1 : Nat) : Int) < total then [Tok.comma, Tok.newline] else [Tok.newline]))
        (cnt + 1)
        { st with calls := (st.calls ++ [group_url cfg gid]) ++ [shifts_url cfg gid2] } hrest
      refine ⟨toks', cnt', st', ?_, ?_, ?_⟩
      · simp only [groups_page, bind, Except.bind]
        rw [hid]
        simp only [Except.bind, htn]
        rw [hgget]
        simp only [Except.bind, hggid, hgtn2]
        rw [hshifts]
        simp only [pure, Except.pure, List.append_assoc]
        simpa [pure, Except.pure, List.append_assoc] using hrun
      · rw [hrec]
        simp [recordsOf_append, recordsOf, hfur]
        split <;> simp [recordsOf]
      · rw [hcnt]
        simp [hfur]
        omega

lemma filterMap_length_add_none_count (f : JVal → Option JVal) :
    ∀ rs : List JVal,
    (rs.filterMap f).length + rs.countP (fun r => (f r).isNone) = rs.length := by
  intro rs
  induction rs with
  | nil => rfl
  | cons r rest ih =>
    rcases hf : f r with _ | v <;>
      simp [List.filterMap_cons, hf, List.countP_cons, ih] <;> omega

/-- Claim C4 (confirmed): in both the users and the groups per-page loops, a record whose per-record secondary lookup fails (transport exception or non-200 status) is skipped — not written and not counted — while traversal continues; the records written are exactly the successfully fetched ones in order, and written + skipped = retrieved. -/
theorem C4_secondary_lookup_skip_exact :
    (∀ (cfg : Config) (fetch : String → FetchResult) (total : Int) (fuel : Nat)
      (rs : List JVal) (toks : List Tok) (cnt : Nat) (st : RunSt),
      (∀ r ∈ rs, users_rec_hyp cfg fetch r) →
      ∃ toks' cnt' st',
        users_page cfg fetch fuel false total rs toks cnt st = .ok (toks', cnt', st') ∧
        recordsOf toks' = recordsOf toks ++
          ((rs.filterMap (fetched_user cfg fetch)).map (fun b => JVal.obj [("user", b)])) ∧
        cnt' = cnt + (rs.filterMap (fetched_user cfg fetch)).length ∧
        (rs.filterMap (fetched_user cfg fetch)).length
          + rs.countP (fun r => (fetched_user cfg fetch r).isNone) = rs.length) ∧
    (∀ (cfg : Config) (fetch : String → FetchResult) (total : Int) (fuel : Nat),
      0 < fuel →
      ∀ (rs : List JVal) (toks : List Tok) (cnt : Nat) (st : RunSt),
      (∀ r ∈ rs, groups_rec_hyp cfg fetch r) →
      ∃ toks' cnt' st',
        groups_page cfg fetch fuel total rs toks cnt st = .ok (toks', cnt', st') ∧
        recordsOf toks' = recordsOf toks ++
          ((rs.filterMap (fetched_group cfg fetch)).map
            (fun b => JVal.obj [("group", b), ("shifts", JVal.arr [])])) ∧
        cnt' = cnt + (rs.filterMap (fetched_group cfg fetch)).length ∧
        (rs.filterMap (fetched_group cfg fetch)).length
          + rs.countP (fun r => (fetched_group cfg fetch r).isNone) = rs.length) := by
  constructor
  · intro cfg fetch total fuel rs toks cnt st hh
    obtain ⟨toks', cnt', st', hrun, hrec, hcnt⟩ := users_page_spec cfg fetch total fuel rs toks cnt st hh
    exact ⟨toks', cnt', st', hrun, hrec, hcnt, filterMap_length_add_none_count _ rs⟩
  · intro cfg fetch total fuel hf rs toks cnt st hh
    obtain ⟨toks', cnt', st', hrun, hrec, hcnt⟩ := groups_page_spec cfg fetch total fuel hf rs toks cnt st hh
    exact ⟨toks', cnt', st', hrun, hrec, hcnt, filterMap_length_add_none_count _ rs⟩

lemma nextPageUrl_nolinks (cfg : Config) (fs : List (String × JVal))
    (h : lookupField fs "links" = none) :
    nextPageUrl cfg (JVal.obj fs) = .ok none := by
  simp [nextPageUrl, hasKey, h, pure, Except.pure]

lemma devices_admin_benign : ∀ (ds : List JVal) (st : RunSt),
    (∀ r ∈ ds, benign_rec r) →
    ∃ st', devices_admin ds st = .ok st' ∧
      st'.sites_cache = st.sites_cache ∧ st'.calls = st.calls ∧
      st'.admin_writes = st.admin_writes ∧ st'.admin_file = st.admin_file := by
  intro ds
  induction ds with
  | nil => intro st _; exact ⟨st, rfl, rfl, rfl, rfl, rfl⟩
  | cons r rest ih =>
    intro st hh
    obtain ⟨fs, rfl, ⟨i, hi⟩, ⟨nm, hnm⟩, ⟨tn, htn⟩, ⟨dt, hdt⟩, htf, hpv⟩ := hh r (by simp)
    obtain ⟨st', hrun, hc, hcl, hw, hf⟩ :=
      ih { st with admin := update_admin .devices (JVal.str (dt ++ "|" ++ nm)) st.admin }
        (fun r' hr' => hh r' (List.mem_cons_of_mem _ hr'))
    refine ⟨st', ?_, by simpa using hc, by simpa using hcl, by simpa using hw,
      by simpa using hf⟩
    have hktf : hasKey (JVal.obj fs) "timeframes" = false := by simp [hasKey, htf]
    have hkpv : hasKey (JVal.obj fs) "provider" = false := by simp [hasKey, hpv]
    have hgdt : getField (JVal.obj fs) "deviceType" = .ok (JVal.str dt) := by
      simp [getField, hdt]
    have hgnm : getField (JVal.obj fs) "name" = .ok (JVal.str nm) := by
      simp [getField, hnm]
    simp only [devices_admin, bind, Except.bind, hktf, hkpv, hgdt, hgnm, asStrE,
      Bool.false_eq_true, if_false, pure, Except.pure]
    exact hrun

lemma devices_loop_benign (cfg : Config) (fetch : String → FetchResult)
    (hb : benign_server fetch) (fuel : Nat) (hf : 0 < fuel) (url : String)
    (dl : List JVal) (st : RunSt) :
    ∃ dl' st', devices_loop cfg fetch fuel url dl st = .ok (dl', st') ∧
      st'.sites_cache = st.sites_cache ∧
      st'.admin_writes = st.admin_writes ∧ st'.admin_file = st.admin_file := by
  match fuel, hf with
  | fuel + 1, _ =>
    obtain ⟨s, b, hfetch, fs, rfl, hrec, _, _, ⟨t, ht⟩, ⟨c, hc⟩, ⟨ds, hds, hbds⟩, hlinks, _, _⟩ :=
      hb url
    have hgt : getField (JVal.obj fs) "total" = .ok (JVal.num t) := by simp [getField, ht]
    have hgc : getField (JVal.obj fs) "count" = .ok (JVal.num c) := by simp [getField, hc]
    have hgd : getField (JVal.obj fs) "data" = .ok (JVal.arr ds) := by simp [getField, hds]
    by_cases hacc : s ≠ 200 ∧ s ≠ 404
    · refine ⟨dl, { st with calls := st.calls ++ [url] }, ?_, rfl, rfl, rfl⟩
      simp only [devices_loop, bind, Except.bind]
      rw [hfetch]
      simp [hacc]
    · by_cases hcnt : c > 0
      · obtain ⟨st', hrun, hc', hcl', hw', hf'⟩ :=
          devices_admin_benign ds { st with calls := st.calls ++ [url] } hbds
        refine ⟨dl ++ ds, st', ?_, by simpa using hc', by simpa using hw', by simpa using hf'⟩
        simp only [devices_loop, bind, Except.bind]
        rw [hfetch]
        simp only [if_neg hacc, hgt, hgc, hgd, asIntE, asArrE, Except.bind, if_pos hcnt]
        rw [hrun]
        simp [nextPageUrl_nolinks cfg fs hlinks, pure, Except.pure]
      · refine ⟨dl, { st with calls := st.calls ++ [url] }, ?_, rfl, rfl, rfl⟩
        simp only [devices_loop, bind, Except.bind]
        rw [hfetch]
        simp only [if_neg hacc, hgt, hgc, hgd, asIntE, asArrE, Except.bind, if_neg hcnt]
        simp [nextPageUrl_nolinks cfg fs hlinks, pure, Except.pure]

lemma benign_body_well_user (b : JVal) (hb : benign_body b) : well_user b := by
  obtain ⟨fs, rfl, hrec, ⟨fn, hfn⟩, ⟨ln, hln⟩, _, _, _, _, hroles, _⟩ := hb
  obtain ⟨fs2, heq, ⟨i, hi⟩, _, ⟨tn, htn⟩, _, _, _⟩ := hrec
  injection heq with heq2
  subst heq2
  exact ⟨fs, rfl, ⟨fn, hfn⟩, ⟨ln, hln⟩, ⟨_, hi⟩, ⟨tn, htn⟩, Or.inl hroles⟩

lemma get_user_devices_benign (cfg : Config) (fetch : String → FetchResult)
    (hb : benign_server fetch) (fuel : Nat) (hf : 0 < fuel) (uid : String) (st : RunSt) :
    ∃ dl' st', get_user_devices cfg fetch fuel (JVal.str uid) st = .ok (dl', st') ∧
      st'.sites_cache = st.sites_cache ∧
      st'.admin_writes = st.admin_writes ∧ st'.admin_file = st.admin_file := by
  obtain ⟨dl', st', hrun, h1, h2, h3⟩ := devices_loop_benign cfg fetch hb fuel hf
    (devices_url cfg uid) [] st
  exact ⟨dl', st', by simpa [get_user_devices, asStrE, bind, Except.bind] using hrun, h1, h2, h3⟩

lemma users_page_benign (cfg : Config) (fetch : String → FetchResult)
    (hb : benign_server fetch) (incl : Bool) (total : Int) (fuel : Nat) (hf : 0 < fuel) :
    ∀ (rs : List JVal) (toks : List Tok) (cnt : Nat) (st : RunSt),
    (∀ r ∈ rs, benign_rec r) →
    ∃ toks' cnt' st',
      users_page cfg fetch fuel incl total rs toks cnt st = .ok (toks', cnt', st') ∧
      st'.sites_cache = st.sites_cache ∧
      st'.admin_writes = st.admin_writes ∧ st'.admin_file = st.admin_file := by
  intro rs
  induction rs with
  | nil =>
    intro toks cnt st _
    exact ⟨toks, cnt, st, by simp [users_page], rfl, rfl, rfl⟩
  | cons r rest ih =>
    intro toks cnt st hh
    obtain ⟨fs, heqr, ⟨i, hi⟩, ⟨nm, hnm⟩, ⟨tn, htn⟩, hdt2, htf2, hpv2⟩ := hh r (by simp)
    subst heqr
    have hgi : getField (JVal.obj fs) "id" = .ok (JVal.str i) := by simp [getField, hi]
    have hgtn : getField (JVal.obj fs) "targetName" = .ok tn := by simp [getField, htn]
    have hrest : ∀ r' ∈ rest, benign_rec r' :=
      fun r' hr' => hh r' (List.mem_cons_of_mem _ hr')
    obtain ⟨s, b, hfetch, hbb⟩ := hb (person_url cfg i)
    by_cases hs : s = 200
    · subst hs
      obtain ⟨st1, hget, hc1, hcl1, hw1, hf1⟩ :=
        get_user_wf cfg fetch i st b hfetch (benign_body_well_user b hbb)
      obtain ⟨bfs, rfl, hbrec, _, _, _, _, _, _, _, _⟩ := hbb
      obtain ⟨bfs2, heq, ⟨bi, hbi⟩, _, ⟨btn, hbtn⟩, _, _, _⟩ := hbrec
      injection heq with heq2
      subst heq2
      have hgbi : getField (JVal.obj bfs) "id" = .ok (JVal.str bi) := by simp [getField, hbi]
      have hgbtn : getField (JVal.obj bfs) "targetName" = .ok btn := by simp [getField, hbtn]
      cases incl with
      | false =>
        obtain ⟨toks', cnt', st', hrun, hc', hw', hf'⟩ := ih
          (toks ++ [Tok.record (JVal.obj [("user", JVal.obj bfs)])] ++
            (if ((cnt + 1 : Nat) : Int) < total then [Tok.comma, Tok.newline]
             else [Tok.newline]))
          (cnt + 1) st1 hrest
        refine ⟨toks', cnt', st', ?_, by rw [hc', hc1], by rw [hw', hw1], by rw [hf', hf1]⟩
        simp only [users_page, bind, Except.bind, hgi, hgtn]
        rw [hget]
        simp only [pure, Except.pure, List.append_assoc]
        simpa [pure, Except.pure, List.append_assoc] using hrun
      | true =>
        obtain ⟨dl2, st2, hdev, hc2, hw2, hf2⟩ :=
          get_user_devices_benign cfg fetch hb fuel hf bi st1
        obtain ⟨toks', cnt', st', hrun, hc', hw', hf'⟩ := ih
          (toks ++ [Tok.record (JVal.obj [("user", JVal.obj bfs), ("devices", JVal.arr dl2)])] ++
            (if ((cnt + 1 : Nat) : Int) < total then [Tok.comma, Tok.newline]
             else [Tok.newline]))
          (cnt + 1) st2 hrest
        refine ⟨toks', cnt', st', ?_, by rw [hc', hc2, hc1], by rw [hw', hw2, hw1],
          by rw [hf', hf2, hf1]⟩
        simp only [users_page, bind, Except.bind, hgi, hgtn]
        rw [hget]
        simp only [Except.bind, hgbi, hgbtn]
        rw [hdev]
        simp only [pure, Except.pure, List.append_assoc]
        simpa [pure, Except.pure, List.append_assoc] using hrun
    · obtain ⟨toks', cnt', st', hrun, hc', hw', hf'⟩ := ih toks cnt
        { st with calls := st.calls ++ [person_url cfg i] } hrest
      refine ⟨toks', cnt', st', ?_, by simpa using hc', by simpa using hw', by simpa using hf'⟩
      simp only [users_page, bind, Except.bind, hgi, hgtn]
      rw [get_user_bad cfg fetch i st s b hfetch hs]
      simpa [pure, Except.pure] using hrun

lemma users_loop_benign (cfg : Config) (fetch : String → FetchResult)
    (hb : benign_server fetch) (incl : Bool) (fuel : Nat) (hf : 0 < fuel)
    (url : String) (toks : List Tok) (cnt : Nat) (total0 : Int) (st : RunSt) :
    ∃ toks' cnt' total' st',
      users_loop cfg fetch incl fuel url toks cnt total0 st = .ok (toks', cnt', total', st') ∧
      st'.sites_cache = st.sites_cache ∧
      st'.admin_writes = st.admin_writes ∧ st'.admin_file = st.admin_file := by
  match fuel, hf with
  | fuel + 1, _ =>
    obtain ⟨s, b, hfetch, fs, rfl, hrec, _, _, ⟨t, ht⟩, ⟨c, hc⟩, ⟨ds, hds, hbds⟩, hlinks, _, _⟩ :=
      hb url
    have hgt : getField (JVal.obj fs) "total" = .ok (JVal.num t) := by simp [getField, ht]
    have hgc : getField (JVal.obj fs) "count" = .ok (JVal.num c) := by simp [getField, hc]
    have hgd : getField (JVal.obj fs) "data" = .ok (JVal.arr ds) := by simp [getField, hds]
    by_cases hacc : s ≠ 200 ∧ s ≠ 404
    · refine ⟨toks, cnt, total0, { st with calls := st.calls ++ [url] }, ?_, rfl, rfl, rfl⟩
      simp only [users_loop, bind, Except.bind]
      rw [hfetch]
      simp [hacc]
    · by_cases hcnt : c > 0
      · obtain ⟨toks', cnt', st', hrun, hc', hw', hf'⟩ :=
          users_page_benign cfg fetch hb incl t (fuel + 1) (by omega) ds toks cnt
            { st with calls := st.calls ++ [url] } hbds
        refine ⟨toks', cnt', t, st', ?_, by simpa using hc', by simpa using hw',
          by simpa using hf'⟩
        simp only [users_loop, bind, Except.bind]
        rw [hfetch]
        simp only [if_neg hacc, hgt, hgc, hgd, asIntE, asArrE, Except.bind, if_pos hcnt]
        rw [hrun]
        simp [nextPageUrl_nolinks cfg fs hlinks, pure, Except.pure]
      · refine ⟨toks, cnt, t, { st with calls := st.calls ++ [url] }, ?_, rfl, rfl, rfl⟩
        simp only [users_loop, bind, Except.bind]
        rw [hfetch]
        simp only [if_neg hacc, hgt, hgc, hgd, asIntE, asArrE, Except.bind, if_neg hcnt]
        simp [nextPageUrl_nolinks cfg fs hlinks, pure, Except.pure]

lemma process_users_benign (cfg : Config) (fetch : String → FetchResult)
    (hb : benign_server fetch) (fuel : Nat) (hf : 0 < fuel) (incl : Bool) (st : RunSt) :
    ∃ toks' st', process_users cfg fetch fuel incl st = .ok (toks', st') ∧
      st'.sites_cache = st.sites_cache ∧
      st'.admin_writes = st.admin_writes ∧ st'.admin_file = st.admin_file := by
  obtain ⟨toks', cnt', total', st', hrun, h1, h2, h3⟩ := users_loop_benign cfg fetch hb incl
    fuel hf (people_coll_url cfg) [Tok.lbrack, Tok.newline] 0 0 st
  refine ⟨toks' ++ [Tok.rbrack], st', ?_, h1, h2, h3⟩
  simp only [process_users, bind, Except.bind]
  rw [hrun]

lemma sites_loop_benign (cfg : Config) (fetch : String → FetchResult)
    (hb : benign_server fetch) (fuel : Nat) (hf : 0 < fuel)
    (url : String) (toks : List Tok) (cnt : Nat) (total0 : Int) (st : RunSt) :
    ∃ toks' cnt' total' st',
      sites_loop cfg fetch fuel url toks cnt total0 st = .ok (toks', cnt', total', st') ∧
      st'.admin_writes = st.admin_writes ∧ st'.admin_file = st.admin_file := by
  match fuel, hf with
  | fuel + 1, _ =>
    obtain ⟨s, b, hfetch, fs, rfl, hrec, _, _, ⟨t, ht⟩, ⟨c, hc⟩, ⟨ds, hds, hbds⟩, hlinks, _, _⟩ :=
      hb url
    have hgt : getField (JVal.obj fs) "total" = .ok (JVal.num t) := by simp [getField, ht]
    have hgc : getField (JVal.obj fs) "count" = .ok (JVal.num c) := by simp [getField, hc]
    have hgd : getField (JVal.obj fs) "data" = .ok (JVal.arr ds) := by simp [getField, hds]
    have hgoodds : ∀ r ∈ ds, (∃ i, getField r "id" = .ok i) ∧
        (∃ n, getField r "name" = .ok n) := by
      intro r hr
      obtain ⟨rfs, rfl, ⟨i, hi⟩, ⟨nm, hnm⟩, _, _, _, _⟩ := hbds r hr
      exact ⟨⟨JVal.str i, by simp [getField, hi]⟩, ⟨JVal.str nm, by simp [getField, hnm]⟩⟩
    by_cases hs : s ≠ 200
    · refine ⟨toks, cnt, total0, { st with calls := st.calls ++ [url] }, ?_, rfl, rfl⟩
      simp only [sites_loop, bind, Except.bind]
      rw [hfetch]
      simp [hs]
    · by_cases hcnt : c > 0
      · obtain ⟨st', hrun, hc', hcl', hw', hf'⟩ :=
          sites_page_spec t ds toks cnt { st with calls := st.calls ++ [url] } hgoodds
        refine ⟨toks ++ seppedFrom cnt t ds, cnt + ds.length, t, st', ?_, by simpa using hw',
          by simpa using hf'⟩
        simp only [sites_loop, bind, Except.bind]
        rw [hfetch]
        simp only [if_neg hs, hgt, hgc, hgd, asIntE, asArrE, Except.bind, if_pos hcnt]
        rw [hrun]
        simp [nextPageUrl_nolinks cfg fs hlinks, pure, Except.pure]
      · refine ⟨toks, cnt, t, { st with calls := st.calls ++ [url] }, ?_, rfl, rfl⟩
        simp only [sites_loop, bind, Except.bind]
        rw [hfetch]
        simp only [if_neg hs, hgt, hgc, hgd, asIntE, asArrE, Except.bind, if_neg hcnt]
        simp [nextPageUrl_nolinks cfg fs hlinks, pure, Except.pure]

lemma process_sites_benign (cfg : Config) (fetch : String → FetchResult)
    (hb : benign_server fetch) (fuel : Nat) (hf : 0 < fuel) (st : RunSt) :
    ∃ toks' st', process_sites cfg fetch fuel st = .ok (toks', st') ∧
      st'.admin_writes = st.admin_writes ∧ st'.admin_file = st.admin_file := by
  obtain ⟨toks', cnt', total', st', hrun, h2, h3⟩ := sites_loop_benign cfg fetch hb
    fuel hf (sites_coll_url cfg) [Tok.lbrack, Tok.newline] 0 0 st
  refine ⟨toks' ++ [Tok.rbrack], st', ?_, h2, h3⟩
  simp only [process_sites, bind, Except.bind]
  rw [hrun]

lemma shifts_loop_benign (cfg : Config) (fetch : String → FetchResult)
    (hb : benign_server fetch) (fuel : Nat) (hf : 0 < fuel)
    (url : String) (sl : List JVal) (st : RunSt) :
    ∃ sl' st', shifts_loop cfg fetch fuel url sl st = .ok (sl', st') ∧
      st'.sites_cache = st.sites_cache ∧ st'.admin = st.admin ∧
      st'.admin_writes = st.admin_writes ∧ st'.admin_file = st.admin_file := by
  match fuel, hf with
  | fuel + 1, _ =>
    obtain ⟨s, b, hfetch, fs, rfl, hrec, _, _, ⟨t, ht⟩, ⟨c, hc⟩, ⟨ds, hds, hbds⟩, hlinks, _, _⟩ :=
      hb url
    have hgt : getField (JVal.obj fs) "total" = .ok (JVal.num t) := by simp [getField, ht]
    have hgc : getField (JVal.obj fs) "count" = .ok (JVal.num c) := by simp [getField, hc]
    have hgd : getField (JVal.obj fs) "data" = .ok (JVal.arr ds) := by simp [getField, hds]
    by_cases hacc : s ≠ 200 ∧ s ≠ 404
    · refine ⟨sl, { st with calls := st.calls ++ [url] }, ?_, rfl, rfl, rfl, rfl⟩
      simp only [shifts_loop, bind, Except.bind]
      rw [hfetch]
      simp [hacc]
    · by_cases hcnt : c > 0
      · refine ⟨sl ++ ds, { st with calls := st.calls ++ [url] }, ?_, rfl, rfl, rfl, rfl⟩
        simp only [shifts_loop, bind, Except.bind]
        rw [hfetch]
        simp only [if_neg hacc, hgt, hgc, hgd, asIntE, asArrE, Except.bind, if_pos hcnt]
        simp [nextPageUrl_nolinks cfg fs hlinks, pure, Except.pure]
      · refine ⟨sl, { st with calls := st.calls ++ [url] }, ?_, rfl, rfl, rfl, rfl⟩
        simp only [shifts_loop, bind, Except.bind]
        rw [hfetch]
        simp only [if_neg hacc, hgt, hgc, hgd, asIntE, asArrE, Except.bind, if_neg hcnt]
        simp [nextPageUrl_nolinks cfg fs hlinks, pure, Except.pure]

lemma groups_page_benign (cfg : Config) (fetch : String → FetchResult)
    (hb : benign_server fetch) (total : Int) (fuel : Nat) (hf : 0 < fuel) :
    ∀ (rs : List JVal) (toks : List Tok) (cnt : Nat) (st : RunSt),
    (∀ r ∈ rs, benign_rec r) →
    ∃ toks' cnt' st',
      groups_page cfg fetch fuel total rs toks cnt st = .ok (toks', cnt', st') ∧
      st'.sites_cache = st.sites_cache ∧
      st'.admin_writes = st.admin_writes ∧ st'.admin_file = st.admin_file := by
  intro rs
  induction rs with
  | nil =>
    intro toks cnt st _
    exact ⟨toks, cnt, st, by simp [groups_page], rfl, rfl, rfl⟩
  | cons r rest ih =>
    intro toks cnt st hh
    obtain ⟨fs, heqr, ⟨i, hi⟩, ⟨nm, hnm⟩, ⟨tn, htn⟩, _, _, _⟩ := hh r (by simp)
    subst heqr
    have hgi : getField (JVal.obj fs) "id" = .ok (JVal.str i) := by simp [getField, hi]
    have hgtn : getField (JVal.obj fs) "targetName" = .ok tn := by simp [getField, htn]
    have hrest : ∀ r' ∈ rest, benign_rec r' :=
      fun r' hr' => hh r' (List.mem_cons_of_mem _ hr')
    obtain ⟨s, b, hfetch, hbb⟩ := hb (group_url cfg i)
    by_cases hs : s = 200
    · subst hs
      obtain ⟨bfs, rfl, hbrec, _, _, _, _, _, _, _, hnosite⟩ := hbb
      obtain ⟨bfs2, heq, ⟨bi, hbi⟩, _, ⟨btn, hbtn⟩, _, _, _⟩ := hbrec
      injection heq with heq2
      subst heq2
      have hget := get_group_nosite cfg fetch i st bfs btn hfetch hnosite hbtn ⟨_, hbi⟩
      have hgbi : getField (JVal.obj bfs) "id" = .ok (JVal.str bi) := by simp [getField, hbi]
      have hgbtn : getField (JVal.obj bfs) "targetName" = .ok btn := by simp [getField, hbtn]
      obtain ⟨sl2, st2, hsh, hc2, ha2, hw2, hf2⟩ := shifts_loop_benign cfg fetch hb fuel hf
        (shifts_url cfg bi) [] { st with calls := st.calls ++ [group_url cfg i] }
      have hshifts : get_group_shifts cfg fetch fuel (JVal.str bi)
          { st with calls := st.calls ++ [group_url cfg i] } = .ok (sl2, st2) := by
        simpa [get_group_shifts, asStrE, bind, Except.bind] using hsh
      obtain ⟨toks', cnt', st', hrun, hc', hw', hf'⟩ := ih
        (toks ++ [Tok.record (JVal.obj [("group", JVal.obj bfs), ("shifts", JVal.arr sl2)])] ++
          (if ((cnt + 1 : Nat) : Int) < total then [Tok.comma, Tok.newline]
           else [Tok.newline]))
        (cnt + 1) st2 hrest
      refine ⟨toks', cnt', st', ?_, by simp [hc', hc2], by simp [hw', hw2], by simp [hf', hf2]⟩
      simp only [groups_page, bind, Except.bind, hgi, hgtn]
      rw [hget]
      simp only [Except.bind, hgbi, hgbtn]
      rw [hshifts]
      simp only [pure, Except.pure, List.append_assoc]
      simpa [pure, Except.pure, List.append_assoc] using hrun
    · obtain ⟨toks', cnt', st', hrun, hc', hw', hf'⟩ := ih toks cnt
        { st with calls := st.calls ++ [group_url cfg i] } hrest
      refine ⟨toks', cnt', st', ?_, by simpa using hc', by simpa using hw', by simpa using hf'⟩
      simp only [groups_page, bind, Except.bind, hgi, hgtn]
      rw [get_group_bad cfg fetch i st s b hfetch hs]
      simpa [pure, Except.pure] using hrun

lemma groups_loop_benign (cfg : Config) (fetch : String → FetchResult)
    (hb : benign_server fetch) (fuel : Nat) (hf : 0 < fuel)
    (url : String) (toks : List Tok) (cnt : Nat) (total0 : Int) (st : RunSt) :
    ∃ toks' cnt' total' st',
      groups_loop cfg fetch fuel url toks cnt total0 st = .ok (toks', cnt', total', st') ∧
      st'.admin_writes = st.admin_writes ∧ st'.admin_file = st.admin_file := by
  match fuel, hf with
  | fuel + 1, _ =>
    obtain ⟨s, b, hfetch, fs, rfl, hrec, _, _, ⟨t, ht⟩, ⟨c, hc⟩, ⟨ds, hds, hbds⟩, hlinks, _, _⟩ :=
      hb url
    have hgt : getField (JVal.obj fs) "total" = .ok (JVal.num t) := by simp [getField, ht]
    have hgc : getField (JVal.obj fs) "count" = .ok (JVal.num c) := by simp [getField, hc]
    have hgd : getField (JVal.obj fs) "data" = .ok (JVal.arr ds) := by simp [getField, hds]
    by_cases hacc : s ≠ 200 ∧ s ≠ 404
    · refine ⟨toks, cnt, total0, { st with calls := st.calls ++ [url] }, ?_, rfl, rfl⟩
      simp only [groups_loop, bind, Except.bind]
      rw [hfetch]
      simp [hacc]
    · by_cases hcnt : c > 0
      · obtain ⟨toks', cnt', st', hrun, hc', hw', hf'⟩ :=
          groups_page_benign cfg fetch hb t (fuel + 1) (by omega) ds toks cnt
            { st with calls := st.calls ++ [url] } hbds
        refine ⟨toks', cnt', t, st', ?_, by simpa using hw', by simpa using hf'⟩
        simp only [groups_loop, bind, Except.bind]
        rw [hfetch]
        simp only [if_neg hacc, hgt, hgc, hgd, asIntE, asArrE, Except.bind, if_pos hcnt]
        rw [hrun]
        simp [nextPageUrl_nolinks cfg fs hlinks, pure, Except.pure]
      · refine ⟨toks, cnt, t, { st with calls := st.calls ++ [url] }, ?_, rfl, rfl⟩
        simp only [groups_loop, bind, Except.bind]
        rw [hfetch]
        simp only [if_neg hacc, hgt, hgc, hgd, asIntE, asArrE, Except.bind, if_neg hcnt]
        simp [nextPageUrl_nolinks cfg fs hlinks, pure, Except.pure]

lemma process_groups_benign (cfg : Config) (fetch : String → FetchResult)
    (hb : benign_server fetch) (fuel : Nat) (hf : 0 < fuel) (st : RunSt) :
    ∃ toks' st', process_groups cfg fetch fuel st = .ok (toks', st') ∧
      st'.admin_writes = st.admin_writes ∧ st'.admin_file = st.admin_file := by
  obtain ⟨toks', cnt', total', st', hrun, h2, h3⟩ := groups_loop_benign cfg fetch hb
    fuel hf (groups_coll_url cfg) [Tok.lbrack, Tok.newline] 0 0 st
  refine ⟨toks' ++ [Tok.rbrack], st', ?_, h2, h3⟩
  simp only [process_groups, bind, Except.bind]
  rw [hrun]

lemma save_writes (st : RunSt) :
    (save_admin_data st).admin_writes = st.admin_writes + 1 ∧
    (save_admin_data st).admin_file = some (save_admin_data st).admin :=
  ⟨rfl, rfl⟩

/-- Claim C2 (corrected): for every requested set of object types and every pattern of HTTP statuses returned by a server that never raises a transport exception and answers with well-formed single-page bodies, no unexpected-status response is fatal: each failing traversal stops, the orchestrator proceeds, the run completes, and the aggregated metadata file is written exactly once at the end, holding exactly the collected admin sets. -/
theorem C2_amended_status_failures_nonfatal_metadata_once (cfg : Config) (fetch : String → FetchResult)
    (hb : benign_server fetch) (fuel : Nat) (hf : 0 < fuel)
    (objs : List String) (st : RunSt) :
    ∃ out, process cfg fetch fuel objs st = .ok out ∧
      out.final.admin_writes = st.admin_writes + 1 ∧
      out.final.admin_file = some out.final.admin := by
  simp only [process, bind, Except.bind]
  by_cases hS : "sites" ∈ objs
  · rw [if_pos hS]
    obtain ⟨tS, st1, hS1, hSw, hSf⟩ :=
      process_sites_benign cfg fetch hb fuel hf { st with admin := emptyAdmin }
    rw [hS1]
    try simp only [pure, Except.pure]
    by_cases hU : "users" ∈ objs
    · rw [if_pos hU]
      obtain ⟨tU, st2, hU1, hUc, hUw, hUf⟩ :=
        process_users_benign cfg fetch hb fuel hf ("devices" ∈ objs) st1
      rw [hU1]
      try simp only [pure, Except.pure]
      by_cases hG : "groups" ∈ objs
      · rw [if_pos hG]
        obtain ⟨tG, st3, hG1, hGw, hGf⟩ := process_groups_benign cfg fetch hb fuel hf st2
        rw [hG1]
        try simp only [pure, Except.pure]
        exact ⟨⟨some tS, some tU, some tG, save_admin_data st3⟩, rfl,
          by simp [save_admin_data, hGw, hUw, hSw], rfl⟩
      · rw [if_neg hG]
        try simp only [pure, Except.pure]
        exact ⟨⟨some tS, some tU, none, save_admin_data st2⟩, rfl,
          by simp [save_admin_data, hUw, hSw], rfl⟩
    · rw [if_neg hU]
      by_cases hD : "devices" ∈ objs
      · rw [if_pos hD]
        obtain ⟨tU, st2, hU1, hUc, hUw, hUf⟩ :=
          process_users_benign cfg fetch hb fuel hf true st1
        rw [hU1]
        try simp only [pure, Except.pure]
        by_cases hG : "groups" ∈ objs
        · rw [if_pos hG]
          obtain ⟨tG, st3, hG1, hGw, hGf⟩ := process_groups_benign cfg fetch hb fuel hf st2
          rw [hG1]
          try simp only [pure, Except.pure]
          exact ⟨⟨some tS, some tU, some tG, save_admin_data st3⟩, rfl,
            by simp [save_admin_data, hGw, hUw, hSw], rfl⟩
        · rw [if_neg hG]
          try simp only [pure, Except.pure]
          exact ⟨⟨some tS, some tU, none, save_admin_data st2⟩, rfl,
            by simp [save_admin_data, hUw, hSw], rfl⟩
      · rw [if_neg hD]
        try simp only [pure, Except.pure]
        by_cases hG : "groups" ∈ objs
        · rw [if_pos hG]
          obtain ⟨tG, st3, hG1, hGw, hGf⟩ := process_groups_benign cfg fetch hb fuel hf st1
          rw [hG1]
          try simp only [pure, Except.pure]
          exact ⟨⟨some tS, none, some tG, save_admin_data st3⟩, rfl,
            by simp [save_admin_data, hGw, hSw], rfl⟩
        · rw [if_neg hG]
          try simp only [pure, Except.pure]
          exact ⟨⟨some tS, none, none, save_admin_data st1⟩, rfl,
            by simp [save_admin_data, hSw], rfl⟩
  · rw [if_neg hS]
    try simp only [pure, Except.pure]
    by_cases hU : "users" ∈ objs
    · rw [if_pos hU]
      obtain ⟨tU, st2, hU1, hUc, hUw, hUf⟩ :=
        process_users_benign cfg fetch hb fuel hf ("devices" ∈ objs)
          { st with admin := emptyAdmin }
      rw [hU1]
      try simp only [pure, Except.pure]
      by_cases hG : "groups" ∈ objs
      · rw [if_pos hG]
        obtain ⟨tG, st3, hG1, hGw, hGf⟩ := process_groups_benign cfg fetch hb fuel hf st2
        rw [hG1]
        try simp only [pure, Except.pure]
        exact ⟨⟨none, some tU, some tG, save_admin_data st3⟩, rfl,
          by simp [save_admin_data, hGw, hUw], rfl⟩
      · rw [if_neg hG]
        try simp only [pure, Except.pure]
        exact ⟨⟨none, some tU, none, save_admin_data st2⟩, rfl,
          by simp [save_admin_data, hUw], rfl⟩
    · rw [if_neg hU]
      by_cases hD : "devices" ∈ objs
      · rw [if_pos hD]
        obtain ⟨tU, st2, hU1, hUc, hUw, hUf⟩ :=
          process_users_benign cfg fetch hb fuel hf true { st with admin := emptyAdmin }
        rw [hU1]
        try simp only [pure, Except.pure]
        by_cases hG : "groups" ∈ objs
        · rw [if_pos hG]
          obtain ⟨tG, st3, hG1, hGw, hGf⟩ := process_groups_benign cfg fetch hb fuel hf st2
          rw [hG1]
          try simp only [pure, Except.pure]
          exact ⟨⟨none, some tU, some tG, save_admin_data st3⟩, rfl,
            by simp [save_admin_data, hGw, hUw], rfl⟩
        · rw [if_neg hG]
          try simp only [pure, Except.pure]
          exact ⟨⟨none, some tU, none, save_admin_data st2⟩, rfl,
            by simp [save_admin_data, hUw], rfl⟩
      · rw [if_neg hD]
        try simp only [pure, Except.pure]
        by_cases hG : "groups" ∈ objs
        · rw [if_pos hG]
          obtain ⟨tG, st3, hG1, hGw, hGf⟩ := process_groups_benign cfg fetch hb fuel hf
            { st with admin := emptyAdmin }
          rw [hG1]
          try simp only [pure, Except.pure]
          exact ⟨⟨none, none, some tG, save_admin_data st3⟩, rfl,
            by simp [save_admin_data, hGw], rfl⟩
        · rw [if_neg hG]
          try simp only [pure, Except.pure]
          exact ⟨⟨none, none, none, save_admin_data { st with admin := emptyAdmin }⟩, rfl,
            by simp [save_admin_data], rfl⟩

-- witness scenario data

/-- Witness for claim C10: the theorem applied to a concrete group `G1` referencing site `S9` whose lookup returns HTTP 500. -/
theorem C10_witness :
    ∃ st', get_group cfgX fetchC10W (JVal.str "G1") initSt =
        .ok (some (setField grpW "site" JVal.null), st') ∧
      dict_lookup st'.sites_cache (JVal.str "S9") = some JVal.null ∧
      lookup_site_name cfgX fetchC10W (JVal.str "S9") st' = .ok (JVal.null, st') ∧
      st'.calls = initSt.calls ++ [group_url cfgX "G1", site_url cfgX "S9"] :=
  C10_failed_site_lookup_null_cached cfgX fetchC10W initSt "G1" "S9"
    [("id", JVal.str "G1"), ("targetName", JVal.str "Ops Team"),
      ("site", JVal.obj [("id", JVal.str "S9")])]
    (JVal.obj [("id", JVal.str "S9")]) (JVal.str "Ops Team") (JVal.str "G1")
    500 (errBody 500 "Internal Error" "boom")
    rfl rfl rfl rfl rfl rfl rfl (by decide) (by decide)

/-- Witness for claim C1: the amended theorem applied to the concrete two-page scenario with sites A, B and C. -/
theorem C1_witness :
    ∃ st', process_sites cfgX fetch_two_pages 5 initSt =
        .ok ([Tok.lbrack, Tok.newline] ++
          seppedFrom 0 (([siteA, siteB, siteC].length : Nat) : Int) [siteA, siteB, siteC]
          ++ [Tok.rbrack], st') ∧
      json_array_ok ([Tok.lbrack, Tok.newline] ++
          seppedFrom 0 (([siteA, siteB, siteC].length : Nat) : Int) [siteA, siteB, siteC]
          ++ [Tok.rbrack]) = true ∧
      recordsOf ([Tok.lbrack, Tok.newline] ++
          seppedFrom 0 (([siteA, siteB, siteC].length : Nat) : Int) [siteA, siteB, siteC]
          ++ [Tok.rbrack]) = [siteA, siteB, siteC] := by
  have h := C1_amended_complete_sites_run_valid_json cfgX fetch_two_pages [[siteA, siteB], [siteC]] 5 initSt
    (PageChain.step _ _ "/p2" _ rfl (PageChain.last _ _ rfl))
    (by
      intro ds hds r hr
      simp at hds
      rcases hds with h1 | h1 <;> subst h1 <;> simp at hr
      · rcases hr with h2 | h2 <;> subst h2 <;>
          exact ⟨⟨_, rfl⟩, ⟨_, rfl⟩⟩
      · subst hr
        exact ⟨⟨_, rfl⟩, ⟨_, rfl⟩⟩)
    (by simp)
  simpa using h

theorem C7_witness :
    ∃ toksS st1, process_sites cfgX fetchC7W 3 initSt = .ok (toksS, st1) ∧
      get_group cfgX fetchC7W (JVal.str "G1") st1 =
        .ok (some (setField grpC7 "site" (JVal.str "Boston HQ")),
          { st1 with calls := st1.calls ++ [group_url cfgX "G1"] }) ∧
      getField (setField grpC7 "site" (JVal.str "Boston HQ")) "site"
        = .ok (JVal.str "Boston HQ") := by
  have h := C7_prewarmed_site_cache_no_extra_calls cfgX fetchC7W [[siteS1]] 3 initSt 1 "S1" "Boston HQ" "G1"
    [("id", JVal.str "G1"), ("targetName", JVal.str "Ops Team"),
      ("site", JVal.obj [("id", JVal.str "S1")])]
    (JVal.obj [("id", JVal.str "S1")]) (JVal.str "Ops Team") (JVal.str "G1")
    (PageChain.last _ _ rfl)
    (by
      intro ds hds r hr
      simp at hds
      subst hds
      simp at hr
      subst hr
      exact ⟨⟨_, rfl⟩, ⟨_, rfl⟩⟩)
    (by simp)
    ⟨siteS1, by simp, rfl⟩
    (by
      intro r hr
      simp at hr
      subst hr
      intro h
      rfl)
    rfl rfl rfl rfl rfl
  exact h

/-- Witness for claim C8: the theorem applied to a concrete user holding the roles `Company Admin` and `Viewer` under the configured admin role `Company Admin`. -/
theorem C8_witness :
    ∃ st', get_user cfgX fetchC8W (JVal.str "U1") initSt = .ok (some userC8, st') ∧
      (JVal.str "mmcbride" ∈ st'.admin.admins ↔
        ∃ r ∈ [JVal.obj [("name", JVal.str "Company Admin")],
          JVal.obj [("name", JVal.str "Viewer")]],
          getField r "name" = .ok cfgX.company_admin_role) ∧
      (∀ x, (∃ r ∈ [JVal.obj [("name", JVal.str "Company Admin")],
          JVal.obj [("name", JVal.str "Viewer")]], getField r "name" = .ok x) →
        x ∈ st'.admin.roles) ∧
      st'.admin.roles.Nodup ∧
      (∀ x, (∃ r ∈ [JVal.obj [("name", JVal.str "Company Admin")],
          JVal.obj [("name", JVal.str "Viewer")]], getField r "name" = .ok x) →
        st'.admin.roles.count x = 1) := by
  have h := C8_admin_role_detection cfgX fetchC8W "U1"
    [("id", JVal.str "U1"), ("targetName", JVal.str "mmcbride"),
      ("firstName", JVal.str "Mary"), ("lastName", JVal.str "McBride"),
      ("roles", JVal.obj [("total", JVal.num 2),
        ("data", JVal.arr [JVal.obj [("name", JVal.str "Company Admin")],
          JVal.obj [("name", JVal.str "Viewer")]])])]
    "Mary" "McBride" (JVal.str "U1") (JVal.str "mmcbride") 2
    [JVal.obj [("name", JVal.str "Company Admin")], JVal.obj [("name", JVal.str "Viewer")]]
    initSt rfl rfl rfl rfl rfl (by simp)
    (by
      intro r hr
      simp at hr
      rcases hr with h1 | h1 <;> subst h1 <;> exact ⟨_, rfl⟩)
    rfl List.nodup_nil (by simp [initSt, emptyAdmin])
  exact h

/-- Witness for claim C4: both parts applied to concrete two-record pages in which the first record succeeds and the second fails. -/
theorem C4_witness :
    (∃ toks' cnt' st',
      users_page cfgX fetchC4W 1 false 2 [uRec1, uRec2] [] 0 initSt = .ok (toks', cnt', st') ∧
      recordsOf toks' = recordsOf [] ++
        (([uRec1, uRec2].filterMap (fetched_user cfgX fetchC4W)).map
          (fun b => JVal.obj [("user", b)])) ∧
      cnt' = 0 + ([uRec1, uRec2].filterMap (fetched_user cfgX fetchC4W)).length ∧
      ([uRec1, uRec2].filterMap (fetched_user cfgX fetchC4W)).length
        + [uRec1, uRec2].countP (fun r => (fetched_user cfgX fetchC4W r).isNone)
        = [uRec1, uRec2].length) ∧
    (∃ toks' cnt' st',
      groups_page cfgX fetchC4W 1 2 [gRec1, gRec2] [] 0 initSt = .ok (toks', cnt', st') ∧
      recordsOf toks' = recordsOf [] ++
        (([gRec1, gRec2].filterMap (fetched_group cfgX fetchC4W)).map
          (fun b => JVal.obj [("group", b), ("shifts", JVal.arr [])])) ∧
      cnt' = 0 + ([gRec1, gRec2].filterMap (fetched_group cfgX fetchC4W)).length ∧
      ([gRec1, gRec2].filterMap (fetched_group cfgX fetchC4W)).length
        + [gRec1, gRec2].countP (fun r => (fetched_group cfgX fetchC4W r).isNone)
        = [gRec1, gRec2].length) := by
  constructor
  · refine C4_secondary_lookup_skip_exact.1 cfgX fetchC4W 2 1 [uRec1, uRec2] [] 0 initSt ?_
    intro r hr
    simp at hr
    rcases hr with h1 | h1 <;> subst h1
    · refine ⟨⟨"U1", rfl⟩, ⟨JVal.str "alice", rfl⟩, ?_⟩
      intro uid h
      have h2 : JVal.str "U1" = JVal.str uid := by injection h
      have h3 : uid = "U1" := by injection h2 with h4; exact h4.symm
      subst h3
      right; right
      exact ⟨uBody1, rfl,
        ⟨_, rfl, ⟨"Alice", rfl⟩, ⟨"Liddell", rfl⟩, ⟨JVal.str "U1", rfl⟩,
          ⟨JVal.str "alice", rfl⟩, Or.inl rfl⟩⟩
    · refine ⟨⟨"U2", rfl⟩, ⟨JVal.str "bob", rfl⟩, ?_⟩
      intro uid h
      have h2 : JVal.str "U2" = JVal.str uid := by injection h
      have h3 : uid = "U2" := by injection h2 with h4; exact h4.symm
      subst h3
      right; left
      exact ⟨500, errBody 500 "Internal Error" "boom", rfl, by decide⟩
  · refine C4_secondary_lookup_skip_exact.2 cfgX fetchC4W 2 1 (by decide) [gRec1, gRec2] [] 0 initSt ?_
    intro r hr
    simp at hr
    rcases hr with h1 | h1 <;> subst h1
    · refine ⟨⟨"G1", rfl⟩, ⟨JVal.str "grp one", rfl⟩, ?_⟩
      intro gid h
      have h2 : JVal.str "G1" = JVal.str gid := by injection h
      have h3 : gid = "G1" := by injection h2 with h4; exact h4.symm
      subst h3
      right; right
      exact ⟨gBody1, rfl,
        ⟨_, rfl, rfl, ⟨JVal.str "grp one", rfl⟩,
          ⟨"G1", rfl, 500, errBody 500 "Internal Error" "boom", rfl, by decide, by decide⟩⟩⟩
    · refine ⟨⟨"G2", rfl⟩, ⟨JVal.str "grp two", rfl⟩, ?_⟩
      intro gid h
      have h2 : JVal.str "G2" = JVal.str gid := by injection h
      have h3 : gid = "G2" := by injection h2 with h4; exact h4.symm
      subst h3
      left
      rfl

lemma benignItemW_rec : benign_rec benignItemW :=
  ⟨_, rfl, ⟨"X", rfl⟩, ⟨"Home Email", rfl⟩, ⟨JVal.str "xw", rfl⟩, ⟨"EMAIL", rfl⟩, rfl, rfl⟩

lemma benignW_body : benign_body benignW :=
  ⟨_, rfl,
    ⟨_, rfl, ⟨"X", rfl⟩, ⟨"Home Email", rfl⟩, ⟨JVal.str "xw", rfl⟩, ⟨"EMAIL", rfl⟩, rfl, rfl⟩,
    ⟨"Xavier", rfl⟩, ⟨"Walsh", rfl⟩, ⟨1, rfl⟩, ⟨1, rfl⟩,
    ⟨[benignItemW], rfl, by
      intro r hr
      simp at hr
      subst hr
      exact benignItemW_rec⟩,
    rfl, rfl, rfl⟩

lemma fetchBenignW_server : benign_server fetchBenignW :=
  fun _ => ⟨200, benignW, rfl, benignW_body⟩

/-- Witness for claim C2: the amended theorem applied to a concrete benign server with all four object types requested. -/
theorem C2_witness :
    ∃ out, process cfgX fetchBenignW 1 ["sites", "users", "devices", "groups"] initSt
        = .ok out ∧
      out.final.admin_writes = initSt.admin_writes + 1 ∧
      out.final.admin_file = some out.final.admin :=
  C2_amended_status_failures_nonfatal_metadata_once cfgX fetchBenignW fetchBenignW_server 1 (by decide)
    ["sites", "users", "devices", "groups"] initSt

/-- Claim C5 (code bug): when the per-user device sub-collection lookup returns HTTP 404 with the standard error body, the devices loop lets the 404 through its status check and then reads `total` from the error body, raising an uncaught KeyError that aborts the entire users traversal — the user record is not written and traversal does not continue, contradicting the claim. -/
theorem C5_bug_device_404_aborts_users :
    process_users cfgX fetchC5W 5 true initSt = .error .keyError := rfl

